import Mathlib

/-
Verification of the Statera protocol accounting core
(packages/contracts/ada-statera-protocol/src/adaStateraProtocol.compact
together with the CustomLibrary module it imports).

Shallow embedding notes.
The contract is written in Compact.  Machine integers (Uint<w>) are
modelled as Nat with explicit range checks wherever the source narrows a
value into a Uint<w> (Compact narrowing casts and ledger writes are
range-checked and abort the transaction when the value does not fit);
checked subtraction models Compact subtraction on unsigned values.
Bytes<32> values (deposit ids, hashes, public keys, token colors) are
modelled as Nat.  persistentHash / persistentCommit are modelled with the
injective pairing function Nat.pair; the division witness is modelled by
native floor division, which is exactly the unique pair accepted by the
quotient/remainder checks of DivisionFunction (see divisionFunction_unique
below).  Fallible circuits return Except ProtocolError State: a Compact
assert failure aborts the whole transaction, which matches the
all-or-nothing Except semantics.

The repository holds two versions of CustomLibrary; the contract's field
accesses (metadata.debt, getMintMetadata(depositId)) only match the later
version embedded in packages/api/src/index.ts, so that version is the one
embedded here (the sibling CustomLibrary.compact file is the stale earlier
version; it additionally asserts amountToMint < collateralAmount in
calculateHFactor and has a different MintMetadata shape).
-/

/-- Status of a user's debt position (enum DebtPositionStatus). -/
inductive DebtPositionStatus where
  | inactive
  | active
  | closed
  | liquidated
deriving DecidableEq, Repr

/-- Error taxonomy of the specification (section 7); each Compact assert
message in the source is classified by the taxonomy of the spec.
CustodyFailure stands for a failing coin send in the external custody
collaborator (sending more than the available coin value). -/
inductive ProtocolError where
  | PreconditionViolation
  | AuthorizationFailure
  | SolvencyViolation
  | ArithmeticFault
  | CustodyFailure
deriving DecidableEq, Repr

/-- Decidable equality for Except results, so that concrete transition
equations can be settled by decide. -/
instance {e a : Type} [DecidableEq e] [DecidableEq a] :
    DecidableEq (Except e a)
  | .error x, .error y => decidable_of_iff (x = y) (by simp)
  | .error _, .ok _ => isFalse (by simp)
  | .ok _, .error _ => isFalse (by simp)
  | .ok x, .ok y => decidable_of_iff (x = y) (by simp)

/-- A coin as seen by the circuits: its token type (color) and its value. -/
structure CoinInfo where
  color : Nat
  value : Nat
deriving DecidableEq, Repr

/-- struct MintMetadata of the later CustomLibrary: the private
collateral/debt pair whose commitment is stored on the ledger. -/
structure MintMetadata where
  collateral : Nat
  debt : Nat
deriving DecidableEq, Repr

/-- struct Depositor of adaStateraProtocol.compact. -/
structure Depositor where
  id : Nat
  metadataHash : Nat
  hFactor : Nat
  position : DebtPositionStatus
  coinType : Nat
  borrowLimit : Nat
deriving DecidableEq, Repr

/-- struct Staker of adaStateraProtocol.compact. -/
structure Staker where
  id : Nat
  address : Nat
  stakeAmount : Nat
  entry_ADA_SUSD_index : Nat
  effective_user_balance : Nat
  stake_reward : Nat
  entry_scale_factor : Nat
deriving DecidableEq, Repr

/-- The caller's environment: the secret key returned by the secrete_key
witness and the caller's public key bytes (ownPublicKey().bytes). -/
structure Caller where
  sk : Nat
  addr : Nat
deriving DecidableEq, Repr

/-- Association-list model of a Compact Map (insert overwrites). -/
def mapLookup {α : Type} (m : List (Nat × α)) (k : Nat) : Option α :=
  match m with
  | [] => none
  | (k', v) :: rest => if k' = k then some v else mapLookup rest k

/-- Compact Map.member. -/
def mapMember {α : Type} (m : List (Nat × α)) (k : Nat) : Bool :=
  (mapLookup m k).isSome

/-- Compact Map.insert: overwrites any previous binding of the key. -/
def mapInsert {α : Type} (m : List (Nat × α)) (k : Nat) (v : α) :
    List (Nat × α) :=
  (k, v) :: m.filter (fun p => p.1 != k)

/-- The full ledger state of the contract, plus the private metadata store
(privStore) of the external metadata collaborator: the witnesses
get_mintmetadata_private_state / set_mint_metadata read and write it,
keyed by deposit id.  Ledger fields keep the source names. -/
structure State where
  admin : Nat
  mintCounter : Nat
  totalMint : Nat
  liquidationThreshold : Nat
  LVT : Nat
  MCR : Nat
  stakePoolTotal : Nat
  reservePoolTotal : Nat
  nonce : Nat
  sUSDTokenType : Nat
  depositors : List (Nat × Depositor)
  stakers : List (Nat × Staker)
  cumulative_scaling_factor : Nat
  validCollateralAssetType : Nat
  percentageDivisor : Nat
  ADA_sUSD_index : Nat
  privStore : List (Nat × MintMetadata)
deriving DecidableEq, Repr

/-- The constructor of adaStateraProtocol.compact.  Ledger fields that the
constructor does not initialize take the Compact default value 0. -/
def initState (intialNonce initLiquidationThreshold initialLVT initialMCR
    _validCollateralAssetType adminAddr : Nat) : State :=
  { admin := adminAddr
    mintCounter := 0
    totalMint := 0
    liquidationThreshold := initLiquidationThreshold
    LVT := initialLVT
    MCR := initialMCR
    stakePoolTotal := 0
    reservePoolTotal := 0
    nonce := intialNonce
    sUSDTokenType := 0
    depositors := []
    stakers := []
    cumulative_scaling_factor := 1
    validCollateralAssetType := _validCollateralAssetType
    percentageDivisor := 100
    ADA_sUSD_index := 0
    privStore := [] }

/-- Compact narrowing cast (expr as Uint<w>) and the implicit range check
of a ledger write: fails when the value does not fit in w bits. -/
def castUint (w n : Nat) : Except ProtocolError Nat :=
  if n < 2 ^ w then .ok n else .error .ArithmeticFault

/-- Compact subtraction on unsigned values: fails on underflow. -/
def checkedSub (a b : Nat) : Except ProtocolError Nat :=
  if b ≤ a then .ok (a - b) else .error .ArithmeticFault

/-- persistentHash over a two-element vector, modelled by the injective
pairing function. -/
def persistentHash2 (a b : Nat) : Nat := Nat.pair a b

/-- pad(32, "susd:user"), an arbitrary fixed tag value. -/
def userTag : Nat := 1

/-- kernel.self().bytes, the contract's own address, a fixed value. -/
def selfAddress : Nat := 0

/-- circuit generateUserId of CustomLibrary. -/
def generateUserId (sk : Nat) : Nat :=
  persistentHash2 userTag (persistentHash2 sk selfAddress)

/-- persistentCommit of a MintMetadata with a randomizer, modelled as an
injective encoding of the (collateral, debt, randomizer) triple. -/
def persistentCommitMeta (m : MintMetadata) (randomizer : Nat) : Nat :=
  Nat.pair (Nat.pair m.collateral m.debt) randomizer

/-- circuit hashMintMetadata of CustomLibrary. -/
def hashMintMetadata (metadata : MintMetadata) (randomizer : Nat) : Nat :=
  persistentCommitMeta metadata randomizer

/-- circuit DivisionFunction of CustomLibrary: the division witness
supplies (quotient, remainder) (natively computed in the project's witness
implementation) and the circuit checks remainder < divisor and
quotient*divisor + remainder == dividend.  Any witness passing these
checks equals floor division (divisionFunction_unique), so the circuit is
embedded as checked floor division. -/
def DivisionFunction (dividend divisor : Nat) : Except ProtocolError Nat :=
  if divisor = 0 then .error .ArithmeticFault
  else .ok (dividend / divisor)

/-- The quotient/remainder checks of DivisionFunction uniquely determine
the floor-division quotient, so the embedding by native floor division is
faithful for every division oracle the circuit accepts. -/
theorem divisionFunction_unique (dividend divisor quotient remainder : Nat)
    (hrem : remainder < divisor)
    (hop : quotient * divisor + remainder = dividend) :
    quotient = dividend / divisor := by
  subst hop
  rw [Nat.mul_comm, Nat.mul_add_div (by omega), Nat.div_eq_of_lt hrem]
  omega

/-- circuit calculateHFactor of CustomLibrary (later version):
verifiedDivide(collateral*liquidationThreshold, amountToMint*100). -/
def calculateHFactor (collateralAmount amountToMint liquidationThreshold :
    Nat) : Except ProtocolError Nat :=
  match castUint 64 (collateralAmount * liquidationThreshold) with
  | .error e => .error e
  | .ok divd =>
    match castUint 64 (amountToMint * 100) with
    | .error e => .error e
    | .ok divs => DivisionFunction divd divs

/-- circuit getMintMetadata: the caller's private metadata for a deposit
id, as returned by the get_mintmetadata_private_state witness; modelled by
the external metadata store held in the state (default metadata when the
store has no entry). -/
def getMintMetadata (s : State) (depositId : Nat) : MintMetadata :=
  (mapLookup s.privStore depositId).getD { collateral := 0, debt := 0 }

/-- evolveNonce(mintCounter, nonce) of the standard library, an injective
mixing of counter and nonce. -/
def evolveNonce (counter nonce : Nat) : Nat := Nat.pair counter nonce

/-- circuit resetProtocolConfig: admin-only update of the three risk
parameters (each a Uint<8>). -/
def resetProtocolConfig (s : State) (caller : Caller)
    (_liquidationThreshold _LVT _MCR : Nat) : Except ProtocolError State :=
  -- assert: "Can not reset contract liquidation rates: You're not the owner"
  if caller.addr = s.admin then
    match castUint 8 _liquidationThreshold, castUint 8 _LVT,
        castUint 8 _MCR with
    | .ok lt, .ok lvt, .ok mcr =>
      .ok { s with liquidationThreshold := lt, LVT := lvt, MCR := mcr }
    | .error e, _, _ => .error e
    | _, .error e, _ => .error e
    | _, _, .error e => .error e
  else .error .AuthorizationFailure

/-- The token type minted for pad(32, "sUSD_token") at the contract's own
address, a fixed value distinct from other colors used in examples. -/
def sUSDTokenConst : Nat := 99

/-- circuit setSUSDTokenType: admin-only initialization of the sUSD token
type. -/
def setSUSDTokenType (s : State) (caller : Caller) :
    Except ProtocolError State :=
  -- assert: "Can not reset contract liquidation rates: You're not the owner"
  if caller.addr = s.admin then
    .ok { s with sUSDTokenType := sUSDTokenConst }
  else .error .AuthorizationFailure

/-- circuit depositToCollateralPool. -/
def depositToCollateralPool (s : State) (caller : Caller) (coin : CoinInfo)
    (_depositId : Nat) : Except ProtocolError State :=
  -- assert: "Deposit with same ID already exist"
  if mapMember s.depositors _depositId then .error .PreconditionViolation
  else
    let metadata := getMintMetadata s _depositId
    -- assert: "Insufficient token amount provided"
    if metadata.collateral ≤ coin.value then
      let metadataHash := hashMintMetadata metadata _depositId
      -- receive(coin) is an external custody call; the reserve pool is
      -- written with the merged coin unless the depositors map is empty
      let newReserve :=
        if s.depositors.isEmpty then coin.value
        else s.reservePoolTotal + coin.value
      let depositorsId := generateUserId caller.sk
      match castUint 64 (s.LVT * metadata.collateral) with
      | .error e => .error e
      | .ok prod =>
        match DivisionFunction prod s.percentageDivisor with
        | .error e => .error e
        | .ok q =>
          match castUint 32 q with
          | .error e => .error e
          | .ok borrowLimit =>
            .ok { s with
              reservePoolTotal := newReserve
              depositors := mapInsert s.depositors _depositId
                { id := depositorsId
                  metadataHash := metadataHash
                  hFactor := 0
                  position := .inactive
                  coinType := coin.color
                  borrowLimit := borrowLimit } }
    else .error .SolvencyViolation

/-- circuit mint_sUSD. -/
def mint_sUSD (s : State) (caller : Caller) (mint_amount _depositId : Nat) :
    Except ProtocolError State :=
  match mapLookup s.depositors _depositId with
  -- assert: "Loan Position does not exist"
  | none => .error .PreconditionViolation
  | some depositPositionToMint =>
    -- assert: "Can not mint loan position: You are not the owner"
    if generateUserId caller.sk = depositPositionToMint.id then
      -- assert: "Can not mint more than borrow limt"
      if mint_amount ≤ depositPositionToMint.borrowLimit then
        let mintMetadata := getMintMetadata s _depositId
        -- assert: "Invalid private state provided"
        if hashMintMetadata mintMetadata _depositId =
            depositPositionToMint.metadataHash then
          match calculateHFactor mintMetadata.collateral mint_amount
              s.liquidationThreshold with
          | .error e => .error e
          | .ok healthFactor =>
            -- assert: "Cannot mint sUSD for this collateral position:
            -- health factor is low"
            if 1 ≤ healthFactor then
              match castUint 4 healthFactor,
                  castUint 128 (s.totalMint + mint_amount) with
              | .ok hf4, .ok newTotal =>
                let newNonce := evolveNonce s.mintCounter s.nonce
                let newMintMetadata :=
                  { mintMetadata with debt := mint_amount }
                .ok { s with
                  privStore :=
                    mapInsert s.privStore _depositId newMintMetadata
                  depositors := mapInsert s.depositors _depositId
                    { depositPositionToMint with
                      position := .active
                      metadataHash :=
                        hashMintMetadata newMintMetadata _depositId
                      hFactor := hf4 }
                  nonce := newNonce
                  mintCounter := s.mintCounter + 1
                  totalMint := newTotal }
              | .error e, _ => .error e
              | _, .error e => .error e
            else .error .SolvencyViolation
        else .error .PreconditionViolation
      else .error .SolvencyViolation
    else .error .AuthorizationFailure

/-- circuit withdrawCollateral. -/
def withdrawCollateral (s : State) (caller : Caller)
    (_depositId _amountToWithdraw _oraclePrice : Nat) :
    Except ProtocolError State :=
  match mapLookup s.depositors _depositId with
  -- assert: "Deposit with the required id does not exist"
  | none => .error .PreconditionViolation
  | some depositPositionToWthdraw =>
    -- assert: "Can not withdrawl collateral: You are not the owner"
    if generateUserId caller.sk = depositPositionToWthdraw.id then
      let metadata := getMintMetadata s _depositId
      -- assert: "Can not withdraw collateral: Invalid private state"
      if hashMintMetadata metadata _depositId =
          depositPositionToWthdraw.metadataHash then
        -- assert: "Can not withdrawl collateral: Your position has been
        -- liquidated"
        if depositPositionToWthdraw.position = .liquidated then
          .error .PreconditionViolation
        else
          match castUint 64 (metadata.debt * s.MCR) with
          | .error e => .error e
          | .ok prod =>
            match DivisionFunction prod s.percentageDivisor with
            | .error e => .error e
            | .ok MCV =>
              match checkedSub (metadata.collateral * _oraclePrice) MCV with
              | .error e => .error e
              | .ok diff =>
                match castUint 64 diff with
                | .error e => .error e
                | .ok diff64 =>
                  match DivisionFunction diff64 _oraclePrice with
                  | .error e => .error e
                  | .ok withdrawableCollateral =>
                    -- assert: "Can not withdraw more than available
                    -- collateral deposited"
                    if _amountToWithdraw ≤ withdrawableCollateral then
                      match checkedSub metadata.collateral
                          _amountToWithdraw with
                      | .error e => .error e
                      | .ok balance =>
                        -- send from the reserve pool (external custody):
                        -- fails when the pool does not cover the amount
                        if _amountToWithdraw ≤ s.reservePoolTotal then
                          let newMetadata :=
                            { metadata with collateral := balance }
                          let newMetadataHash :=
                            hashMintMetadata newMetadata _depositId
                          let newPosition :=
                            if depositPositionToWthdraw.position =
                                .inactive then
                              DebtPositionStatus.closed
                            else depositPositionToWthdraw.position
                          .ok { s with
                            reservePoolTotal :=
                              s.reservePoolTotal - _amountToWithdraw
                            privStore := mapInsert s.privStore _depositId
                              newMetadata
                            depositors := mapInsert s.depositors _depositId
                              { depositPositionToWthdraw with
                                position := newPosition
                                metadataHash := newMetadataHash } }
                        else .error .CustodyFailure
                    else .error .SolvencyViolation
      else .error .PreconditionViolation
    else .error .AuthorizationFailure

/-- circuit repay. -/
def repay (s : State) (caller : Caller) (coin : CoinInfo)
    (_depositId _amountToRepay : Nat) : Except ProtocolError State :=
  match mapLookup s.depositors _depositId with
  -- assert: "Deposit with the required id does not exist"
  | none => .error .PreconditionViolation
  | some mintPositionToRepay =>
    -- assert: "Cannot repay an inactive, closed or liquidated c0llateral
    -- position"
    if mintPositionToRepay.position = .active then
      let metadata := getMintMetadata s _depositId
      -- assert: "Can not withdraw collateral: Invalid private state"
      if hashMintMetadata metadata _depositId =
          mintPositionToRepay.metadataHash then
        -- assert: "Can not repay minted sUSD: Invalid token type provided"
        if coin.color = s.sUSDTokenType then
          -- assert: "Can not repay minted sUSD: tokens must be equivalent
          -- to the amount of sUSD minted"
          if _amountToRepay ≤ metadata.debt then
            -- assert: "Can not repay minted sUSD: Insufficient tokens
            -- provided to cover amount to repay"
            if coin.value ≤ _amountToRepay then
              -- sendImmediate(coin, burnAddress, amountToRepay): the
              -- external custody send fails when the coin does not cover
              -- the amount sent
              if _amountToRepay ≤ coin.value then
                let balanceToRepay := metadata.debt - _amountToRepay
                let newMetadata := { metadata with debt := balanceToRepay }
                let newMetadataHash :=
                  hashMintMetadata newMetadata _depositId
                .ok { s with
                  privStore := mapInsert s.privStore _depositId newMetadata
                  depositors := mapInsert s.depositors _depositId
                    { mintPositionToRepay with
                      metadataHash := newMetadataHash
                      position :=
                        if 0 < balanceToRepay then
                          DebtPositionStatus.active
                        else DebtPositionStatus.closed } }
              else .error .CustodyFailure
            else .error .PreconditionViolation
          else .error .PreconditionViolation
        else .error .PreconditionViolation
      else .error .PreconditionViolation
    else .error .PreconditionViolation

/-- circuit depositToStabilityPool. -/
def depositToStabilityPool (s : State) (caller : Caller) (coin : CoinInfo) :
    Except ProtocolError State :=
  -- assert: "Stake with same ID already exist"
  if mapMember s.stakers caller.addr then .error .PreconditionViolation
  else
    -- assert: "Invalid coin type provided to pool"
    if coin.color = s.sUSDTokenType then
      let newStakePool :=
        if s.stakers.isEmpty then coin.value
        else s.stakePoolTotal + coin.value
      match castUint 32 coin.value with
      | .error e => .error e
      | .ok ebal =>
        .ok { s with
          stakePoolTotal := newStakePool
          stakers := mapInsert s.stakers caller.addr
            { id := generateUserId caller.sk
              address := caller.addr
              stakeAmount := coin.value
              entry_ADA_SUSD_index := s.ADA_sUSD_index
              effective_user_balance := ebal
              stake_reward := 0
              entry_scale_factor := s.cumulative_scaling_factor } }
    else .error .PreconditionViolation

/-- circuit checkStakeReward: returns the reward and the updated Staker
record, and persists the updated record. -/
def checkStakeReward (s : State) (caller : Caller) :
    Except ProtocolError (Nat × Staker × State) :=
  match mapLookup s.stakers caller.addr with
  -- assert: "Can not check stake reward: You have no stake position"
  | none => .error .PreconditionViolation
  | some stakePosition =>
    -- assert: "You are not a staker: Invalid staker ID"
    if generateUserId caller.sk = stakePosition.id then
      match checkedSub s.ADA_sUSD_index
          stakePosition.entry_ADA_SUSD_index with
      | .error e => .error e
      | .ok dIdx =>
        match castUint 64
            (stakePosition.stakeAmount * dIdx +
              stakePosition.stake_reward) with
        | .error e => .error e
        | .ok stakeReward =>
          match castUint 64 s.cumulative_scaling_factor with
          | .error e => .error e
          | .ok csf64 =>
            match DivisionFunction csf64
                stakePosition.entry_scale_factor with
            | .error e => .error e
            | .ok scaleQuot =>
              match castUint 32 (stakePosition.stakeAmount * scaleQuot) with
              | .error e => .error e
              | .ok newEffectiveBal =>
                let updatedStakersPosition :=
                  { stakePosition with
                    stake_reward := stakeReward
                    effective_user_balance := newEffectiveBal }
                .ok (stakeReward, updatedStakersPosition,
                  { s with
                    stakers :=
                      mapInsert s.stakers caller.addr
                        updatedStakersPosition })
    else .error .AuthorizationFailure

/-- circuit withdrawStakeReward: first runs checkStakeReward, then pays
the amount out of the reserve pool and checkpoints the entry index. -/
def withdrawStakeReward (s : State) (caller : Caller) (_amount : Nat) :
    Except ProtocolError State :=
  match checkStakeReward s caller with
  | .error e => .error e
  | .ok (stakeReward, updatedStakersPosition, s1) =>
    -- assert (twice): "Can not withdraw more than available stake reward"
    if _amount ≤ stakeReward then
      -- send from the reserve pool (external custody)
      if _amount ≤ s1.reservePoolTotal then
        match castUint 64 (stakeReward - _amount) with
        | .error e => .error e
        | .ok stakeRewardBalance =>
          .ok { s1 with
            reservePoolTotal := s1.reservePoolTotal - _amount
            stakers := mapInsert s1.stakers caller.addr
              { updatedStakersPosition with
                stake_reward := stakeRewardBalance
                entry_ADA_SUSD_index := s1.ADA_sUSD_index } }
      else .error .CustodyFailure
    else .error .SolvencyViolation

/-- circuit liquidateDebtPosition.  Note: no ownership, metadata-hash,
position-status or health-factor check appears in the source. -/
def liquidateDebtPosition (s : State) (_collateralAmt _depositId _debt :
    Nat) : Except ProtocolError State :=
  match mapLookup s.depositors _depositId with
  -- assert: "Deposit with the required Id does not exist"
  | none => .error .PreconditionViolation
  | some collateralDepositToLiquidate =>
    -- assert: "Insufficient Funds in stake pool"
    if _debt ≤ s.stakePoolTotal then
      -- send(stakePoolTotal, burnAddress, debt); the guard above makes
      -- the custody send succeed, leaving value stakePoolTotal - debt
      let poolAfterBurn := s.stakePoolTotal - _debt
      match castUint 64 poolAfterBurn with
      | .error e => .error e
      | .ok pool64 =>
        match DivisionFunction _collateralAmt pool64 with
        | .error e => .error e
        | .ok currentIdx =>
          match castUint 128 currentIdx with
          | .error e => .error e
          | .ok currentIdx128 =>
            match castUint 128 (s.ADA_sUSD_index + currentIdx128) with
            | .error e => .error e
            | .ok newIdx =>
              match DivisionFunction _debt pool64 with
              | .error e => .error e
              | .ok lossQuot =>
                match checkedSub 1 lossQuot with
                | .error e => .error e
                | .ok oneMinusLoss =>
                  match castUint 2
                      (s.cumulative_scaling_factor * oneMinusLoss) with
                  | .error e => .error e
                  | .ok newScalingFactor =>
                    .ok { s with
                      stakePoolTotal := poolAfterBurn
                      ADA_sUSD_index := newIdx
                      cumulative_scaling_factor := newScalingFactor
                      privStore := mapInsert s.privStore _depositId
                        { collateral := 0, debt := 0 }
                      depositors := mapInsert s.depositors _depositId
                        { collateralDepositToLiquidate with
                          hFactor := 0
                          position := .liquidated
                          borrowLimit := 0 } }
    else .error .SolvencyViolation

/-- One caller-initiated operation of the system: the exported circuits of
the contract, plus the off-ledger private-metadata write performed by the
API client before a deposit (packages/api/src/index.ts,
depositToCollateralPool updates the private state with the claimed
collateral before calling the circuit). -/
inductive Op where
  | opResetConfig (caller : Caller) (lt lvt mcr : Nat)
  | opSetToken (caller : Caller)
  | opDeposit (caller : Caller) (coin : CoinInfo) (depositId : Nat)
  | opMint (caller : Caller) (amount depositId : Nat)
  | opWithdraw (caller : Caller) (depositId amount oraclePrice : Nat)
  | opRepay (caller : Caller) (coin : CoinInfo) (depositId amount : Nat)
  | opStake (caller : Caller) (coin : CoinInfo)
  | opCheckReward (caller : Caller)
  | opWithdrawReward (caller : Caller) (amount : Nat)
  | opLiquidate (collateralAmt depositId debt : Nat)
  | opSetPrivateMeta (depositId : Nat) (metadata : MintMetadata)
deriving DecidableEq, Repr

/-- The off-chain write to the external metadata store (set by the owner
of the private state; the ledger is untouched).  The MintMetadata fields
are Uint<64> values. -/
def setPrivateMetadata (s : State) (depositId : Nat)
    (metadata : MintMetadata) : Except ProtocolError State :=
  match castUint 64 metadata.collateral, castUint 64 metadata.debt with
  | .ok _, .ok _ =>
    .ok { s with privStore := mapInsert s.privStore depositId metadata }
  | .error e, _ => .error e
  | _, .error e => .error e

/-- Dispatch of one atomic transition. -/
def applyOp (s : State) : Op → Except ProtocolError State
  | .opResetConfig caller lt lvt mcr =>
    resetProtocolConfig s caller lt lvt mcr
  | .opSetToken caller => setSUSDTokenType s caller
  | .opDeposit caller coin depositId =>
    depositToCollateralPool s caller coin depositId
  | .opMint caller amount depositId => mint_sUSD s caller amount depositId
  | .opWithdraw caller depositId amount oraclePrice =>
    withdrawCollateral s caller depositId amount oraclePrice
  | .opRepay caller coin depositId amount =>
    repay s caller coin depositId amount
  | .opStake caller coin => depositToStabilityPool s caller coin
  | .opCheckReward caller =>
    match checkStakeReward s caller with
    | .error e => .error e
    | .ok (_, _, s') => .ok s'
  | .opWithdrawReward caller amount => withdrawStakeReward s caller amount
  | .opLiquidate collateralAmt depositId debt =>
    liquidateDebtPosition s collateralAmt depositId debt
  | .opSetPrivateMeta depositId metadata =>
    setPrivateMetadata s depositId metadata

/-- A sequence of accepted transitions. -/
def applyOps (s : State) : List Op → Except ProtocolError State
  | [] => .ok s
  | op :: rest =>
    match applyOp s op with
    | .error e => .error e
    | .ok s' => applyOps s' rest

/-- Reachable states: a freshly constructed contract followed by any
sequence of accepted operations. -/
inductive Reachable : State → Prop where
  | init (intialNonce initLiquidationThreshold initialLVT initialMCR
      _validCollateralAssetType adminAddr : Nat) :
      Reachable (initState intialNonce initLiquidationThreshold initialLVT
        initialMCR _validCollateralAssetType adminAddr)
  | step (s : State) (op : Op) (s' : State) :
      Reachable s → applyOp s op = .ok s' → Reachable s'

/-- The sum of the private debt over all positions whose status is neither
closed nor liquidated (the spec's invariant candidate for totalMint). -/
def activeDebtSum (s : State) : Nat :=
  (s.depositors.filter (fun p =>
    p.2.position != DebtPositionStatus.closed &&
    p.2.position != DebtPositionStatus.liquidated)).foldl
    (fun acc p => acc + (getMintMetadata s p.1).debt) 0

/-- The commitment-hash consistency of one Depositor record against the
current private metadata store. -/
def hashConsistentB (s : State) (depositId : Nat) : Bool :=
  match mapLookup s.depositors depositId with
  | none => false
  | some d =>
    d.metadataHash == hashMintMetadata (getMintMetadata s depositId)
      depositId

/-- The amount minted by an operation (zero for everything except a
mint). -/
def mintedAmount : Op → Nat
  | .opMint _ amount _ => amount
  | _ => 0

/-- Whether an operation is a liquidation. -/
def isLiquidateOp : Op → Bool
  | .opLiquidate _ _ _ => true
  | _ => false

/-- Fallback-extracting the success state of a transition (used only to
name the states of concrete traces). -/
def okOr (e : Except ProtocolError State) (fallback : State) : State :=
  match e with
  | .ok s => s
  | .error _ => fallback

/-- The deployer / position owner of the concrete traces. -/
def callerA : Caller := { sk := 10, addr := 20 }

/-- A second, distinct caller (not the owner of any position). -/
def callerB : Caller := { sk := 11, addr := 21 }

/-- Trace: freshly deployed contract with liquidationThreshold 80,
LVT 50, MCR 110, admin callerA. -/
def t0 : State := initState 0 80 50 110 1 20

/-- Trace: after the admin initializes the sUSD token type. -/
def t1 : State := okOr (applyOp t0 (.opSetToken callerA)) t0

/-- Trace: after the owner writes private metadata collateral 1000 for
deposit id 5. -/
def t2 : State :=
  okOr (applyOp t1 (.opSetPrivateMeta 5 { collateral := 1000, debt := 0 }))
    t0

/-- Trace: after depositing a 1000-value collateral coin under id 5. -/
def t3 : State :=
  okOr (applyOp t2 (.opDeposit callerA { color := 1, value := 1000 } 5)) t0

/-- Trace: after minting 500 sUSD against position 5. -/
def t4 : State := okOr (applyOp t3 (.opMint callerA 500 5)) t0

/-- Trace: after callerA stakes 100 sUSD in the stability pool. -/
def t5 : State :=
  okOr (applyOp t4 (.opStake callerA { color := 99, value := 100 })) t0

/-- Trace: after liquidating position 5 with collateralAmt 60 and debt 50
(burning 50 from the 100-value stability pool). -/
def t6 : State := okOr (applyOp t5 (.opLiquidate 60 5 50)) t0

/-- Branch: partial repay of 200 against position 5 (from t4). -/
def r5 : State :=
  okOr (applyOp t4 (.opRepay callerA { color := 99, value := 200 } 5 200))
    t0

/-- Branch: full repay of 500 against position 5 (from t4); the position
closes. -/
def rc5 : State :=
  okOr (applyOp t4 (.opRepay callerA { color := 99, value := 500 } 5 500))
    t0

/-- Branch: a second mint of 400 on the closed position 5 (from rc5). -/
def rc6 : State := okOr (applyOp rc5 (.opMint callerA 400 5)) t0

/- Helper lemmas about the map model and the checked primitives. -/

theorem mapLookup_filter_ne {α : Type} (m : List (Nat × α)) (k k' : Nat)
    (h : k ≠ k') :
    mapLookup (m.filter (fun p => p.1 != k)) k' = mapLookup m k' := by
  induction m with
  | nil => rfl
  | cons p rest ih =>
    by_cases hp : p.1 = k
    · have : (p.1 != k) = false := by simp [hp]
      simp only [List.filter, this]
      rw [ih]
      cases p with
      | mk a b =>
        simp only [mapLookup]
        simp at hp
        rw [if_neg (by simp [hp]; exact h)]
    · have : (p.1 != k) = true := by simp [hp]
      simp only [List.filter, this]
      cases p with
      | mk a b => simp only [mapLookup, ih]

theorem mapLookup_insert_self {α : Type} (m : List (Nat × α)) (k : Nat)
    (v : α) : mapLookup (mapInsert m k v) k = some v := by
  simp [mapInsert, mapLookup]

theorem mapLookup_insert_ne {α : Type} (m : List (Nat × α)) (k k' : Nat)
    (v : α) (h : k ≠ k') :
    mapLookup (mapInsert m k v) k' = mapLookup m k' := by
  simp only [mapInsert, mapLookup, if_neg h]
  exact mapLookup_filter_ne m k k' h

theorem castUint_ok {w n m : Nat} (h : castUint w n = .ok m) :
    m = n ∧ n < 2 ^ w := by
  unfold castUint at h
  split at h
  · cases h; exact ⟨rfl, by assumption⟩
  · cases h

theorem checkedSub_ok {a b c : Nat} (h : checkedSub a b = .ok c) :
    c = a - b ∧ b ≤ a := by
  unfold checkedSub at h
  split at h
  · cases h; exact ⟨rfl, by assumption⟩
  · cases h

theorem divisionFunction_ok {a b q : Nat}
    (h : DivisionFunction a b = .ok q) : q = a / b ∧ b ≠ 0 := by
  unfold DivisionFunction at h
  split at h
  · cases h
  · cases h; exact ⟨rfl, by assumption⟩

theorem castUint_ok_iff {w n m : Nat} :
    castUint w n = .ok m ↔ (n < 2 ^ w ∧ m = n) := by
  unfold castUint
  split
  · constructor
    · intro h; cases h; exact ⟨by assumption, rfl⟩
    · rintro ⟨-, rfl⟩; rfl
  · constructor
    · intro h; cases h
    · rintro ⟨hc, -⟩; omega

theorem checkedSub_ok_iff {a b c : Nat} :
    checkedSub a b = .ok c ↔ (b ≤ a ∧ c = a - b) := by
  unfold checkedSub
  split
  · constructor
    · intro h; cases h; exact ⟨by assumption, rfl⟩
    · rintro ⟨-, rfl⟩; rfl
  · constructor
    · intro h; cases h
    · rintro ⟨hc, -⟩; omega

theorem divisionFunction_ok_iff {a b q : Nat} :
    DivisionFunction a b = .ok q ↔ (b ≠ 0 ∧ q = a / b) := by
  unfold DivisionFunction
  split
  · constructor
    · intro h; cases h
    · rintro ⟨hb, -⟩; simp_all
  · constructor
    · intro h; cases h; exact ⟨by assumption, rfl⟩
    · rintro ⟨-, rfl⟩; rfl

theorem mul_one_sub_le (a b : Nat) : a * (1 - b) ≤ a := by
  calc a * (1 - b) ≤ a * 1 := Nat.mul_le_mul_left _ (by omega)
    _ = a := Nat.mul_one a

/-- Full characterization of a successful checkStakeReward call. -/
theorem checkStakeReward_ok {s : State} {caller : Caller} {r : Nat}
    {st : Staker} {s' : State}
    (h : checkStakeReward s caller = .ok (r, st, s')) :
    ∃ pos, mapLookup s.stakers caller.addr = some pos ∧
      generateUserId caller.sk = pos.id ∧
      pos.entry_ADA_SUSD_index ≤ s.ADA_sUSD_index ∧
      r = pos.stakeAmount *
          (s.ADA_sUSD_index - pos.entry_ADA_SUSD_index) +
          pos.stake_reward ∧
      r < 2 ^ 64 ∧
      s.cumulative_scaling_factor < 2 ^ 64 ∧
      pos.entry_scale_factor ≠ 0 ∧
      pos.stakeAmount *
          (s.cumulative_scaling_factor / pos.entry_scale_factor) <
        2 ^ 32 ∧
      st = { pos with
        stake_reward := r
        effective_user_balance :=
          pos.stakeAmount *
            (s.cumulative_scaling_factor / pos.entry_scale_factor) } ∧
      s' = { s with stakers := mapInsert s.stakers caller.addr st } := by
  cases hpos : mapLookup s.stakers caller.addr with
  | none => simp only [checkStakeReward, hpos] at h; cases h
  | some pos =>
  simp only [checkStakeReward, hpos] at h
  by_cases hid : generateUserId caller.sk = pos.id
  case neg => rw [if_neg hid] at h; cases h
  rw [if_pos hid] at h
  cases hsub : checkedSub s.ADA_sUSD_index pos.entry_ADA_SUSD_index with
  | error e => simp only [hsub] at h; cases h
  | ok dIdx =>
  simp only [hsub] at h
  obtain ⟨hle, rfl⟩ := checkedSub_ok_iff.mp hsub
  cases hsr : castUint 64
      (pos.stakeAmount *
        (s.ADA_sUSD_index - pos.entry_ADA_SUSD_index) +
        pos.stake_reward) with
  | error e => simp only [hsr] at h; cases h
  | ok stakeReward =>
  simp only [hsr] at h
  obtain ⟨hsrlt, rfl⟩ := castUint_ok_iff.mp hsr
  cases hcsf : castUint 64 s.cumulative_scaling_factor with
  | error e => simp only [hcsf] at h; cases h
  | ok csf64 =>
  simp only [hcsf] at h
  obtain ⟨hcsflt, rfl⟩ := castUint_ok_iff.mp hcsf
  cases hq : DivisionFunction s.cumulative_scaling_factor
      pos.entry_scale_factor with
  | error e => simp only [hq] at h; cases h
  | ok scaleQuot =>
  simp only [hq] at h
  obtain ⟨hesf, rfl⟩ := divisionFunction_ok_iff.mp hq
  cases heb : castUint 32
      (pos.stakeAmount *
        (s.cumulative_scaling_factor / pos.entry_scale_factor)) with
  | error e => simp only [heb] at h; cases h
  | ok newEffectiveBal =>
  simp only [heb] at h
  obtain ⟨heblt, rfl⟩ := castUint_ok_iff.mp heb
  cases h
  exact ⟨pos, rfl, hid, hle, rfl, hsrlt, hcsflt, hesf, heblt, rfl, rfl⟩

/-- Full characterization of a successful liquidateDebtPosition call:
it requires only that the position exists and the stake pool covers the
burned debt, plus the arithmetic side conditions; no ownership,
metadata-hash, position-status or health-factor condition appears. -/
theorem liquidateDebtPosition_ok {s : State}
    {collateralAmt depositId debt : Nat} {s' : State}
    (h : liquidateDebtPosition s collateralAmt depositId debt = .ok s') :
    ∃ pos, mapLookup s.depositors depositId = some pos ∧
      debt ≤ s.stakePoolTotal ∧
      s.stakePoolTotal - debt < 2 ^ 64 ∧
      s.stakePoolTotal - debt ≠ 0 ∧
      s.ADA_sUSD_index + collateralAmt / (s.stakePoolTotal - debt) <
        2 ^ 128 ∧
      debt / (s.stakePoolTotal - debt) ≤ 1 ∧
      s.cumulative_scaling_factor *
          (1 - debt / (s.stakePoolTotal - debt)) < 4 ∧
      s' = { s with
        stakePoolTotal := s.stakePoolTotal - debt
        ADA_sUSD_index :=
          s.ADA_sUSD_index + collateralAmt / (s.stakePoolTotal - debt)
        cumulative_scaling_factor :=
          s.cumulative_scaling_factor *
            (1 - debt / (s.stakePoolTotal - debt))
        privStore := mapInsert s.privStore depositId
          { collateral := 0, debt := 0 }
        depositors := mapInsert s.depositors depositId
          { pos with
            hFactor := 0
            position := .liquidated
            borrowLimit := 0 } } := by
  cases hpos : mapLookup s.depositors depositId with
  | none => simp only [liquidateDebtPosition, hpos] at h; cases h
  | some pos =>
  simp only [liquidateDebtPosition, hpos] at h
  by_cases hpool : debt ≤ s.stakePoolTotal
  case neg => rw [if_neg hpool] at h; cases h
  rw [if_pos hpool] at h
  cases hp64 : castUint 64 (s.stakePoolTotal - debt) with
  | error e => simp only [hp64] at h; cases h
  | ok pool64 =>
  simp only [hp64] at h
  obtain ⟨hp64lt, rfl⟩ := castUint_ok_iff.mp hp64
  cases hcur : DivisionFunction collateralAmt
      (s.stakePoolTotal - debt) with
  | error e => simp only [hcur] at h; cases h
  | ok currentIdx =>
  simp only [hcur] at h
  obtain ⟨hpz, rfl⟩ := divisionFunction_ok_iff.mp hcur
  cases hc128 : castUint 128
      (collateralAmt / (s.stakePoolTotal - debt)) with
  | error e => simp only [hc128] at h; cases h
  | ok currentIdx128 =>
  simp only [hc128] at h
  obtain ⟨hcurlt, rfl⟩ := castUint_ok_iff.mp hc128
  cases hidx : castUint 128
      (s.ADA_sUSD_index + collateralAmt / (s.stakePoolTotal - debt)) with
  | error e => simp only [hidx] at h; cases h
  | ok newIdx =>
  simp only [hidx] at h
  obtain ⟨hidxlt, rfl⟩ := castUint_ok_iff.mp hidx
  cases hloss : DivisionFunction debt (s.stakePoolTotal - debt) with
  | error e => simp only [hloss] at h; cases h
  | ok lossQuot =>
  simp only [hloss] at h
  obtain ⟨-, rfl⟩ := divisionFunction_ok_iff.mp hloss
  cases hom : checkedSub 1 (debt / (s.stakePoolTotal - debt)) with
  | error e => simp only [hom] at h; cases h
  | ok oneMinusLoss =>
  simp only [hom] at h
  obtain ⟨hlr, rfl⟩ := checkedSub_ok_iff.mp hom
  cases hcsf2 : castUint 2
      (s.cumulative_scaling_factor *
        (1 - debt / (s.stakePoolTotal - debt))) with
  | error e => simp only [hcsf2] at h; cases h
  | ok newScalingFactor =>
  simp only [hcsf2] at h
  obtain ⟨hcsf2lt, rfl⟩ := castUint_ok_iff.mp hcsf2
  cases h
  exact ⟨pos, rfl, hpool, hp64lt, hpz, hidxlt, hlr, hcsf2lt, rfl⟩

/-- Single-step behaviour of the two global dilution indices: every
accepted operation leaves cumulative_scaling_factor non-increased and
ADA_sUSD_index non-decreased, and only a liquidation can change them. -/
theorem applyOp_dilution (s : State) (op : Op) (s' : State)
    (h : applyOp s op = .ok s') :
    s'.cumulative_scaling_factor ≤ s.cumulative_scaling_factor ∧
    s.ADA_sUSD_index ≤ s'.ADA_sUSD_index ∧
    (isLiquidateOp op = false →
      s'.cumulative_scaling_factor = s.cumulative_scaling_factor ∧
      s'.ADA_sUSD_index = s.ADA_sUSD_index) := by
  cases op with
  | opResetConfig caller lt lvt mcr =>
    simp only [applyOp, resetProtocolConfig] at h
    repeat' split at h
    all_goals cases h
    all_goals simp [isLiquidateOp]
  | opSetToken caller =>
    simp only [applyOp, setSUSDTokenType] at h
    repeat' split at h
    all_goals cases h
    all_goals simp [isLiquidateOp]
  | opDeposit caller coin depositId =>
    simp only [applyOp, depositToCollateralPool] at h
    repeat' split at h
    all_goals cases h
    all_goals simp [isLiquidateOp]
  | opMint caller amount depositId =>
    simp only [applyOp, mint_sUSD] at h
    repeat' split at h
    all_goals cases h
    all_goals simp [isLiquidateOp]
  | opWithdraw caller depositId amount oraclePrice =>
    simp only [applyOp, withdrawCollateral] at h
    repeat' split at h
    all_goals cases h
    all_goals simp [isLiquidateOp]
  | opRepay caller coin depositId amount =>
    simp only [applyOp, repay] at h
    repeat' split at h
    all_goals cases h
    all_goals simp [isLiquidateOp]
  | opStake caller coin =>
    simp only [applyOp, depositToStabilityPool] at h
    repeat' split at h
    all_goals cases h
    all_goals simp [isLiquidateOp]
  | opCheckReward caller =>
    simp only [applyOp] at h
    split at h
    · cases h
    next r st s1 heq =>
      cases h
      obtain ⟨pos, -, -, -, -, -, -, -, -, -, rfl⟩ :=
        checkStakeReward_ok heq
      simp [isLiquidateOp]
  | opWithdrawReward caller amount =>
    simp only [applyOp, withdrawStakeReward] at h
    split at h
    · cases h
    next r st s1 heq =>
      repeat' split at h
      all_goals cases h
      all_goals
        obtain ⟨pos, -, -, -, -, -, -, -, -, -, rfl⟩ :=
          checkStakeReward_ok heq
      all_goals simp [isLiquidateOp]
  | opSetPrivateMeta depositId metadata =>
    simp only [applyOp, setPrivateMetadata] at h
    repeat' split at h
    all_goals cases h
    all_goals simp [isLiquidateOp]
  | opLiquidate collateralAmt depositId debt =>
    simp only [applyOp] at h
    obtain ⟨pos, -, -, -, -, -, -, -, rfl⟩ := liquidateDebtPosition_ok h
    refine ⟨mul_one_sub_le _ _, Nat.le_add_right _ _, ?_⟩
    intro hfalse
    simp [isLiquidateOp] at hfalse

/-- Characterization of a successful mint_sUSD call. -/
theorem mint_sUSD_ok {s : State} {caller : Caller}
    {mint_amount depositId : Nat} {s' : State}
    (h : mint_sUSD s caller mint_amount depositId = .ok s') :
    ∃ pos hf, mapLookup s.depositors depositId = some pos ∧
      generateUserId caller.sk = pos.id ∧
      mint_amount ≤ pos.borrowLimit ∧
      hashMintMetadata (getMintMetadata s depositId) depositId =
        pos.metadataHash ∧
      calculateHFactor (getMintMetadata s depositId).collateral
        mint_amount s.liquidationThreshold = .ok hf ∧
      1 ≤ hf ∧ hf < 2 ^ 4 ∧
      s.totalMint + mint_amount < 2 ^ 128 ∧
      s' = { s with
        privStore := mapInsert s.privStore depositId
          { getMintMetadata s depositId with debt := mint_amount }
        depositors := mapInsert s.depositors depositId
          { pos with
            position := .active
            metadataHash := hashMintMetadata
              { getMintMetadata s depositId with debt := mint_amount }
              depositId
            hFactor := hf }
        nonce := evolveNonce s.mintCounter s.nonce
        mintCounter := s.mintCounter + 1
        totalMint := s.totalMint + mint_amount } := by
  cases hpos : mapLookup s.depositors depositId with
  | none => simp only [mint_sUSD, hpos] at h; cases h
  | some pos =>
  simp only [mint_sUSD, hpos] at h
  by_cases hid : generateUserId caller.sk = pos.id
  case neg => rw [if_neg hid] at h; cases h
  rw [if_pos hid] at h
  by_cases hbl : mint_amount ≤ pos.borrowLimit
  case neg => rw [if_neg hbl] at h; cases h
  rw [if_pos hbl] at h
  by_cases hhash : hashMintMetadata (getMintMetadata s depositId)
      depositId = pos.metadataHash
  case neg => rw [if_neg hhash] at h; cases h
  rw [if_pos hhash] at h
  cases hhf : calculateHFactor (getMintMetadata s depositId).collateral
      mint_amount s.liquidationThreshold with
  | error e => simp only [hhf] at h; cases h
  | ok healthFactor =>
  simp only [hhf] at h
  by_cases hge : 1 ≤ healthFactor
  case neg => rw [if_neg hge] at h; cases h
  rw [if_pos hge] at h
  cases hc4 : castUint 4 healthFactor with
  | error e => simp only [hc4] at h; cases h
  | ok hf4 =>
  cases hc128 : castUint 128 (s.totalMint + mint_amount) with
  | error e => simp only [hc4, hc128] at h; cases h
  | ok newTotal =>
  simp only [hc4, hc128] at h
  obtain ⟨hf4lt, rfl⟩ := castUint_ok_iff.mp hc4
  obtain ⟨htmlt, rfl⟩ := castUint_ok_iff.mp hc128
  cases h
  exact ⟨pos, _, rfl, hid, hbl, hhash, rfl, hge, hf4lt, htmlt, rfl⟩

/-- Characterization of a successful repay call: note that no condition
relates the caller to the stored owner id. -/
theorem repay_ok {s : State} {caller : Caller} {coin : CoinInfo}
    {depositId amountToRepay : Nat} {s' : State}
    (h : repay s caller coin depositId amountToRepay = .ok s') :
    ∃ pos, mapLookup s.depositors depositId = some pos ∧
      pos.position = .active ∧
      hashMintMetadata (getMintMetadata s depositId) depositId =
        pos.metadataHash ∧
      coin.color = s.sUSDTokenType ∧
      amountToRepay ≤ (getMintMetadata s depositId).debt ∧
      coin.value ≤ amountToRepay ∧
      amountToRepay ≤ coin.value ∧
      s' = { s with
        privStore := mapInsert s.privStore depositId
          { getMintMetadata s depositId with
            debt := (getMintMetadata s depositId).debt - amountToRepay }
        depositors := mapInsert s.depositors depositId
          { pos with
            metadataHash := hashMintMetadata
              { getMintMetadata s depositId with
                debt :=
                  (getMintMetadata s depositId).debt - amountToRepay }
              depositId
            position :=
              if 0 < (getMintMetadata s depositId).debt - amountToRepay
              then DebtPositionStatus.active
              else DebtPositionStatus.closed } } := by
  cases hpos : mapLookup s.depositors depositId with
  | none => simp only [repay, hpos] at h; cases h
  | some pos =>
  simp only [repay, hpos] at h
  by_cases hact : pos.position = .active
  case neg => rw [if_neg hact] at h; cases h
  rw [if_pos hact] at h
  by_cases hhash : hashMintMetadata (getMintMetadata s depositId)
      depositId = pos.metadataHash
  case neg => rw [if_neg hhash] at h; cases h
  rw [if_pos hhash] at h
  by_cases hcol : coin.color = s.sUSDTokenType
  case neg => rw [if_neg hcol] at h; cases h
  rw [if_pos hcol] at h
  by_cases hdbt : amountToRepay ≤ (getMintMetadata s depositId).debt
  case neg => rw [if_neg hdbt] at h; cases h
  rw [if_pos hdbt] at h
  by_cases hcv : coin.value ≤ amountToRepay
  case neg => rw [if_neg hcv] at h; cases h
  rw [if_pos hcv] at h
  by_cases hvc : amountToRepay ≤ coin.value
  case neg => rw [if_neg hvc] at h; cases h
  rw [if_pos hvc] at h
  cases h
  exact ⟨pos, rfl, hact, hhash, hcol, hdbt, hcv, hvc, rfl⟩

/-- Characterization of a successful withdrawCollateral call. -/
theorem withdrawCollateral_ok {s : State} {caller : Caller}
    {depositId amountToWithdraw oraclePrice : Nat} {s' : State}
    (h : withdrawCollateral s caller depositId amountToWithdraw
      oraclePrice = .ok s') :
    ∃ pos, mapLookup s.depositors depositId = some pos ∧
      generateUserId caller.sk = pos.id ∧
      hashMintMetadata (getMintMetadata s depositId) depositId =
        pos.metadataHash ∧
      pos.position ≠ .liquidated ∧
      (getMintMetadata s depositId).debt * s.MCR < 2 ^ 64 ∧
      s.percentageDivisor ≠ 0 ∧
      (getMintMetadata s depositId).debt * s.MCR / s.percentageDivisor ≤
        (getMintMetadata s depositId).collateral * oraclePrice ∧
      (getMintMetadata s depositId).collateral * oraclePrice -
          (getMintMetadata s depositId).debt * s.MCR /
            s.percentageDivisor < 2 ^ 64 ∧
      oraclePrice ≠ 0 ∧
      amountToWithdraw ≤
        ((getMintMetadata s depositId).collateral * oraclePrice -
          (getMintMetadata s depositId).debt * s.MCR /
            s.percentageDivisor) / oraclePrice ∧
      amountToWithdraw ≤ (getMintMetadata s depositId).collateral ∧
      amountToWithdraw ≤ s.reservePoolTotal ∧
      s' = { s with
        reservePoolTotal := s.reservePoolTotal - amountToWithdraw
        privStore := mapInsert s.privStore depositId
          { getMintMetadata s depositId with
            collateral :=
              (getMintMetadata s depositId).collateral -
                amountToWithdraw }
        depositors := mapInsert s.depositors depositId
          { pos with
            position :=
              if pos.position = .inactive then DebtPositionStatus.closed
              else pos.position
            metadataHash := hashMintMetadata
              { getMintMetadata s depositId with
                collateral :=
                  (getMintMetadata s depositId).collateral -
                    amountToWithdraw }
              depositId } } := by
  cases hpos : mapLookup s.depositors depositId with
  | none => simp only [withdrawCollateral, hpos] at h; cases h
  | some pos =>
  simp only [withdrawCollateral, hpos] at h
  by_cases hid : generateUserId caller.sk = pos.id
  case neg => rw [if_neg hid] at h; cases h
  rw [if_pos hid] at h
  by_cases hhash : hashMintMetadata (getMintMetadata s depositId)
      depositId = pos.metadataHash
  case neg => rw [if_neg hhash] at h; cases h
  rw [if_pos hhash] at h
  by_cases hliq : pos.position = DebtPositionStatus.liquidated
  case pos => rw [if_pos hliq] at h; cases h
  rw [if_neg hliq] at h
  cases hmcr : castUint 64 ((getMintMetadata s depositId).debt * s.MCR)
      with
  | error e => simp only [hmcr] at h; cases h
  | ok prod =>
  simp only [hmcr] at h
  obtain ⟨hmcrlt, rfl⟩ := castUint_ok_iff.mp hmcr
  cases hmcv : DivisionFunction
      ((getMintMetadata s depositId).debt * s.MCR)
      s.percentageDivisor with
  | error e => simp only [hmcv] at h; cases h
  | ok MCV =>
  simp only [hmcv] at h
  obtain ⟨hpd, rfl⟩ := divisionFunction_ok_iff.mp hmcv
  cases hdiff : checkedSub
      ((getMintMetadata s depositId).collateral * oraclePrice)
      ((getMintMetadata s depositId).debt * s.MCR /
        s.percentageDivisor) with
  | error e => simp only [hdiff] at h; cases h
  | ok diff =>
  simp only [hdiff] at h
  obtain ⟨hmle, rfl⟩ := checkedSub_ok_iff.mp hdiff
  cases hd64 : castUint 64
      ((getMintMetadata s depositId).collateral * oraclePrice -
        (getMintMetadata s depositId).debt * s.MCR /
          s.percentageDivisor) with
  | error e => simp only [hd64] at h; cases h
  | ok diff64 =>
  simp only [hd64] at h
  obtain ⟨hdlt, rfl⟩ := castUint_ok_iff.mp hd64
  cases hwd : DivisionFunction
      ((getMintMetadata s depositId).collateral * oraclePrice -
        (getMintMetadata s depositId).debt * s.MCR /
          s.percentageDivisor)
      oraclePrice with
  | error e => simp only [hwd] at h; cases h
  | ok withdrawableCollateral =>
  simp only [hwd] at h
  obtain ⟨hop, rfl⟩ := divisionFunction_ok_iff.mp hwd
  by_cases hamt : amountToWithdraw ≤
      ((getMintMetadata s depositId).collateral * oraclePrice -
        (getMintMetadata s depositId).debt * s.MCR /
          s.percentageDivisor) / oraclePrice
  case neg => rw [if_neg hamt] at h; cases h
  rw [if_pos hamt] at h
  cases hbal : checkedSub (getMintMetadata s depositId).collateral
      amountToWithdraw with
  | error e => simp only [hbal] at h; cases h
  | ok balance =>
  simp only [hbal] at h
  obtain ⟨hcle, rfl⟩ := checkedSub_ok_iff.mp hbal
  by_cases hres : amountToWithdraw ≤ s.reservePoolTotal
  case neg => rw [if_neg hres] at h; cases h
  rw [if_pos hres] at h
  cases h
  exact ⟨pos, rfl, hid, hhash, hliq, hmcrlt, hpd, hmle, hdlt, hop,
    hamt, hcle, hres, rfl⟩

/-- Characterization of a successful depositToCollateralPool call. -/
theorem depositToCollateralPool_ok {s : State} {caller : Caller}
    {coin : CoinInfo} {depositId : Nat} {s' : State}
    (h : depositToCollateralPool s caller coin depositId = .ok s') :
    mapMember s.depositors depositId = false ∧
    (getMintMetadata s depositId).collateral ≤ coin.value ∧
    s.LVT * (getMintMetadata s depositId).collateral < 2 ^ 64 ∧
    s.percentageDivisor ≠ 0 ∧
    s.LVT * (getMintMetadata s depositId).collateral /
      s.percentageDivisor < 2 ^ 32 ∧
    s' = { s with
      reservePoolTotal :=
        if s.depositors.isEmpty then coin.value
        else s.reservePoolTotal + coin.value
      depositors := mapInsert s.depositors depositId
        { id := generateUserId caller.sk
          metadataHash :=
            hashMintMetadata (getMintMetadata s depositId) depositId
          hFactor := 0
          position := .inactive
          coinType := coin.color
          borrowLimit :=
            s.LVT * (getMintMetadata s depositId).collateral /
              s.percentageDivisor } } := by
  unfold depositToCollateralPool at h
  by_cases hmem : mapMember s.depositors depositId
  case pos => rw [if_pos hmem] at h; cases h
  rw [if_neg hmem] at h
  by_cases hcov : (getMintMetadata s depositId).collateral ≤ coin.value
  case neg => rw [if_neg hcov] at h; cases h
  rw [if_pos hcov] at h
  cases hp : castUint 64
      (s.LVT * (getMintMetadata s depositId).collateral) with
  | error e => simp only [hp] at h; cases h
  | ok prod =>
  simp only [hp] at h
  obtain ⟨hplt, rfl⟩ := castUint_ok_iff.mp hp
  cases hq : DivisionFunction
      (s.LVT * (getMintMetadata s depositId).collateral)
      s.percentageDivisor with
  | error e => simp only [hq] at h; cases h
  | ok q =>
  simp only [hq] at h
  obtain ⟨hpd, rfl⟩ := divisionFunction_ok_iff.mp hq
  cases hbl : castUint 32
      (s.LVT * (getMintMetadata s depositId).collateral /
        s.percentageDivisor) with
  | error e => simp only [hbl] at h; cases h
  | ok borrowLimit =>
  simp only [hbl] at h
  obtain ⟨hbllt, rfl⟩ := castUint_ok_iff.mp hbl
  cases h
  exact ⟨by simpa using hmem, hcov, hplt, hpd, hbllt, rfl⟩

/-- Characterization of a successful depositToStabilityPool call. -/
theorem depositToStabilityPool_ok {s : State} {caller : Caller}
    {coin : CoinInfo} {s' : State}
    (h : depositToStabilityPool s caller coin = .ok s') :
    mapMember s.stakers caller.addr = false ∧
    coin.color = s.sUSDTokenType ∧
    coin.value < 2 ^ 32 ∧
    s' = { s with
      stakePoolTotal :=
        if s.stakers.isEmpty then coin.value
        else s.stakePoolTotal + coin.value
      stakers := mapInsert s.stakers caller.addr
        { id := generateUserId caller.sk
          address := caller.addr
          stakeAmount := coin.value
          entry_ADA_SUSD_index := s.ADA_sUSD_index
          effective_user_balance := coin.value
          stake_reward := 0
          entry_scale_factor := s.cumulative_scaling_factor } } := by
  unfold depositToStabilityPool at h
  by_cases hmem : mapMember s.stakers caller.addr
  case pos => rw [if_pos hmem] at h; cases h
  rw [if_neg hmem] at h
  by_cases hcol : coin.color = s.sUSDTokenType
  case neg => rw [if_neg hcol] at h; cases h
  rw [if_pos hcol] at h
  cases heb : castUint 32 coin.value with
  | error e => simp only [heb] at h; cases h
  | ok ebal =>
  simp only [heb] at h
  obtain ⟨heblt, rfl⟩ := castUint_ok_iff.mp heb
  cases h
  exact ⟨by simpa using hmem, hcol, heblt, rfl⟩

/-- Characterization of a successful withdrawStakeReward call. -/
theorem withdrawStakeReward_ok {s : State} {caller : Caller}
    {amount : Nat} {s' : State}
    (h : withdrawStakeReward s caller amount = .ok s') :
    ∃ r st s1, checkStakeReward s caller = .ok (r, st, s1) ∧
      amount ≤ r ∧ amount ≤ s1.reservePoolTotal ∧ r - amount < 2 ^ 64 ∧
      s' = { s1 with
        reservePoolTotal := s1.reservePoolTotal - amount
        stakers := mapInsert s1.stakers caller.addr
          { st with
            stake_reward := r - amount
            entry_ADA_SUSD_index := s1.ADA_sUSD_index } } := by
  unfold withdrawStakeReward at h
  cases hcr : checkStakeReward s caller with
  | error e => simp only [hcr] at h; cases h
  | ok trip =>
  obtain ⟨r, st, s1⟩ := trip
  simp only [hcr] at h
  by_cases hle : amount ≤ r
  case neg => rw [if_neg hle] at h; cases h
  rw [if_pos hle] at h
  by_cases hres : amount ≤ s1.reservePoolTotal
  case neg => rw [if_neg hres] at h; cases h
  rw [if_pos hres] at h
  cases hc64 : castUint 64 (r - amount) with
  | error e => simp only [hc64] at h; cases h
  | ok bal =>
  simp only [hc64] at h
  obtain ⟨hballt, rfl⟩ := castUint_ok_iff.mp hc64
  cases h
  exact ⟨r, st, s1, rfl, hle, hres, hballt, rfl⟩

/-- Characterization of a successful resetProtocolConfig call. -/
theorem resetProtocolConfig_ok {s : State} {caller : Caller}
    {lt lvt mcr : Nat} {s' : State}
    (h : resetProtocolConfig s caller lt lvt mcr = .ok s') :
    caller.addr = s.admin ∧ lt < 2 ^ 8 ∧ lvt < 2 ^ 8 ∧ mcr < 2 ^ 8 ∧
    s' = { s with
      liquidationThreshold := lt, LVT := lvt, MCR := mcr } := by
  unfold resetProtocolConfig at h
  by_cases hadm : caller.addr = s.admin
  case neg => rw [if_neg hadm] at h; cases h
  rw [if_pos hadm] at h
  cases h1 : castUint 8 lt with
  | error e => simp only [h1] at h; cases h
  | ok a =>
  cases h2 : castUint 8 lvt with
  | error e => simp only [h1, h2] at h; cases h
  | ok b =>
  cases h3 : castUint 8 mcr with
  | error e => simp only [h1, h2, h3] at h; cases h
  | ok c =>
  simp only [h1, h2, h3] at h
  obtain ⟨l1, rfl⟩ := castUint_ok_iff.mp h1
  obtain ⟨l2, rfl⟩ := castUint_ok_iff.mp h2
  obtain ⟨l3, rfl⟩ := castUint_ok_iff.mp h3
  cases h
  exact ⟨hadm, l1, l2, l3, rfl⟩

/-- Characterization of a successful setSUSDTokenType call. -/
theorem setSUSDTokenType_ok {s : State} {caller : Caller} {s' : State}
    (h : setSUSDTokenType s caller = .ok s') :
    caller.addr = s.admin ∧
    s' = { s with sUSDTokenType := sUSDTokenConst } := by
  unfold setSUSDTokenType at h
  by_cases hadm : caller.addr = s.admin
  case neg => rw [if_neg hadm] at h; cases h
  rw [if_pos hadm] at h
  cases h
  exact ⟨hadm, rfl⟩

/-- Characterization of a successful off-chain private-metadata write. -/
theorem setPrivateMetadata_ok {s : State} {depositId : Nat}
    {metadata : MintMetadata} {s' : State}
    (h : setPrivateMetadata s depositId metadata = .ok s') :
    metadata.collateral < 2 ^ 64 ∧ metadata.debt < 2 ^ 64 ∧
    s' = { s with
      privStore := mapInsert s.privStore depositId metadata } := by
  unfold setPrivateMetadata at h
  cases h1 : castUint 64 metadata.collateral with
  | error e => simp only [h1] at h; cases h
  | ok a =>
  cases h2 : castUint 64 metadata.debt with
  | error e => simp only [h1, h2] at h; cases h
  | ok b =>
  simp only [h1, h2] at h
  obtain ⟨l1, rfl⟩ := castUint_ok_iff.mp h1
  obtain ⟨l2, rfl⟩ := castUint_ok_iff.mp h2
  cases h
  exact ⟨l1, l2, rfl⟩

/- Reachability of the concrete trace states. -/

theorem reach_t1 : Reachable t1 :=
  Reachable.step t0 (.opSetToken callerA) t1
    (Reachable.init 0 80 50 110 1 20) rfl

theorem reach_t2 : Reachable t2 :=
  Reachable.step t1 (.opSetPrivateMeta 5 { collateral := 1000, debt := 0 })
    t2 reach_t1 rfl

theorem reach_t3 : Reachable t3 :=
  Reachable.step t2 (.opDeposit callerA { color := 1, value := 1000 } 5)
    t3 reach_t2 rfl

theorem reach_t4 : Reachable t4 :=
  Reachable.step t3 (.opMint callerA 500 5) t4 reach_t3 rfl

theorem reach_t5 : Reachable t5 :=
  Reachable.step t4 (.opStake callerA { color := 99, value := 100 }) t5
    reach_t4 rfl

theorem reach_t6 : Reachable t6 :=
  Reachable.step t5 (.opLiquidate 60 5 50) t6 reach_t5 rfl

theorem reach_r5 : Reachable r5 :=
  Reachable.step t4
    (.opRepay callerA { color := 99, value := 200 } 5 200) r5 reach_t4 rfl

theorem reach_rc5 : Reachable rc5 :=
  Reachable.step t4
    (.opRepay callerA { color := 99, value := 500 } 5 500) rc5 reach_t4
    rfl

/-- Dilution monotonicity over an arbitrary accepted sequence. -/
theorem applyOps_dilution (ops : List Op) : ∀ s s' : State,
    applyOps s ops = .ok s' →
    s'.cumulative_scaling_factor ≤ s.cumulative_scaling_factor ∧
    s.ADA_sUSD_index ≤ s'.ADA_sUSD_index := by
  induction ops with
  | nil =>
    intro s s' h
    cases h
    exact ⟨Nat.le_refl _, Nat.le_refl _⟩
  | cons op rest ih =>
    intro s s' h
    unfold applyOps at h
    cases happ : applyOp s op with
    | error e => simp only [happ] at h; cases h
    | ok s1 =>
    simp only [happ] at h
    obtain ⟨h1, h2, -⟩ := applyOp_dilution s op s1 happ
    obtain ⟨h3, h4⟩ := ih s1 s' h
    exact ⟨Nat.le_trans h3 h1, Nat.le_trans h2 h4⟩

/-- Claim C6: across every sequence of accepted operations,
cumulative_scaling_factor is non-increasing and ADA_sUSD_index is
non-decreasing; only liquidateDebtPosition changes them (every accepted
non-liquidation operation leaves both unchanged). -/
theorem c6_dilution_monotone :
    (∀ (s : State) (ops : List Op) (s' : State),
      applyOps s ops = .ok s' →
      s'.cumulative_scaling_factor ≤ s.cumulative_scaling_factor ∧
      s.ADA_sUSD_index ≤ s'.ADA_sUSD_index) ∧
    (∀ (s : State) (op : Op) (s' : State), isLiquidateOp op = false →
      applyOp s op = .ok s' →
      s'.cumulative_scaling_factor = s.cumulative_scaling_factor ∧
      s'.ADA_sUSD_index = s.ADA_sUSD_index) :=
  ⟨fun s ops s' h => applyOps_dilution ops s s' h,
   fun s op s' hnl h => (applyOp_dilution s op s' h).2.2 hnl⟩

/-- Witness for C6 at a concrete liquidation (factor 1 to 0, index 0 to
1) and a concrete non-liquidation step. -/
theorem c6_witness :
    (t6.cumulative_scaling_factor ≤ t5.cumulative_scaling_factor ∧
      t5.ADA_sUSD_index ≤ t6.ADA_sUSD_index) ∧
    (t5.cumulative_scaling_factor = t4.cumulative_scaling_factor ∧
      t5.ADA_sUSD_index = t4.ADA_sUSD_index) :=
  ⟨c6_dilution_monotone.1 t5 [.opLiquidate 60 5 50] t6 (by decide),
   c6_dilution_monotone.2 t4 (.opStake callerA { color := 99, value := 100 })
     t5 (by decide) (by decide)⟩

/-- Claim C1 (amended): totalMint is the cumulative sum of minted
amounts: an accepted mint_sUSD of amount a increases totalMint by exactly
a and every other accepted operation (deposit, repay, withdrawal,
staking, reward handling, liquidation, configuration) leaves totalMint
unchanged; in particular repay and liquidateDebtPosition do not decrease
it, so totalMint does not track the outstanding-debt sum. -/
theorem c1_totalMint_cumulative (s : State) (op : Op) (s' : State)
    (h : applyOp s op = .ok s') :
    s'.totalMint = s.totalMint + mintedAmount op := by
  cases op with
  | opResetConfig caller lt lvt mcr =>
    obtain ⟨-, -, -, -, rfl⟩ := resetProtocolConfig_ok h
    simp [mintedAmount]
  | opSetToken caller =>
    obtain ⟨-, rfl⟩ := setSUSDTokenType_ok h
    simp [mintedAmount]
  | opDeposit caller coin depositId =>
    obtain ⟨-, -, -, -, -, rfl⟩ := depositToCollateralPool_ok h
    simp [mintedAmount]
  | opMint caller amount depositId =>
    obtain ⟨pos, hf, -, -, -, -, -, -, -, -, rfl⟩ := mint_sUSD_ok h
    simp [mintedAmount]
  | opWithdraw caller depositId amount oraclePrice =>
    obtain ⟨pos, -, -, -, -, -, -, -, -, -, -, -, -, rfl⟩ :=
      withdrawCollateral_ok h
    simp [mintedAmount]
  | opRepay caller coin depositId amount =>
    simp only [applyOp] at h
    obtain ⟨pos, -, -, -, -, -, -, -, rfl⟩ := repay_ok h
    simp [mintedAmount]
  | opStake caller coin =>
    obtain ⟨-, -, -, rfl⟩ := depositToStabilityPool_ok h
    simp [mintedAmount]
  | opCheckReward caller =>
    simp only [applyOp] at h
    split at h
    · cases h
    next r st s1 heq =>
      cases h
      obtain ⟨pos, -, -, -, -, -, -, -, -, -, rfl⟩ :=
        checkStakeReward_ok heq
      simp [mintedAmount]
  | opWithdrawReward caller amount =>
    simp only [applyOp] at h
    obtain ⟨r, st, s1, hcr, -, -, -, rfl⟩ := withdrawStakeReward_ok h
    obtain ⟨pos, -, -, -, -, -, -, -, -, -, rfl⟩ :=
      checkStakeReward_ok hcr
    simp [mintedAmount]
  | opLiquidate collateralAmt depositId debt =>
    simp only [applyOp] at h
    obtain ⟨pos, -, -, -, -, -, -, -, rfl⟩ := liquidateDebtPosition_ok h
    simp [mintedAmount]
  | opSetPrivateMeta depositId metadata =>
    obtain ⟨-, -, rfl⟩ := setPrivateMetadata_ok h
    simp [mintedAmount]

/-- Witness for C1 (amended) at the concrete mint step of the trace. -/
theorem c1_witness :
    t4.totalMint = t3.totalMint + mintedAmount (.opMint callerA 500 5) ∧
    t3.totalMint = 0 ∧ t4.totalMint = 500 :=
  ⟨c1_totalMint_cumulative t3 (.opMint callerA 500 5) t4 (by decide),
   by decide, by decide⟩

/-- Counterexample for C1 as stated: r5 is reachable (deposit 1000, mint
500, then repay 200), its position is still active with private debt 300,
but totalMint is still 500, so totalMint differs from the debt sum over
non-closed/non-liquidated positions: repay does not preserve the claimed
equality. -/
theorem c1_counterexample :
    Reachable r5 ∧ r5.totalMint = 500 ∧ activeDebtSum r5 = 300 ∧
    r5.totalMint ≠ activeDebtSum r5 :=
  ⟨reach_r5, by decide, by decide, by decide⟩

/-- Claim C2 (amended): deposit establishes the commitment-hash equality
for the new position; mint_sUSD, withdrawCollateral and repay check the
equality before acting (a success implies the pre-state was consistent at
that deposit id) and re-establish it after updating the private metadata;
liquidateDebtPosition is excluded: it performs no metadata-hash check and
leaves the stored metadataHash stale relative to the zeroed private
metadata, so the equality is not a global reachable-state invariant. -/
theorem c2_hash_commitment (s : State) (op : Op) (s' : State)
    (h : applyOp s op = .ok s') :
    (match op with
     | .opMint _ _ depositId =>
        hashConsistentB s depositId = true ∧
        hashConsistentB s' depositId = true
     | .opWithdraw _ depositId _ _ =>
        hashConsistentB s depositId = true ∧
        hashConsistentB s' depositId = true
     | .opRepay _ _ depositId _ =>
        hashConsistentB s depositId = true ∧
        hashConsistentB s' depositId = true
     | .opDeposit _ _ depositId => hashConsistentB s' depositId = true
     | _ => True) := by
  cases op with
  | opMint caller amount depositId =>
    simp only [applyOp] at h
    obtain ⟨pos, hf, hpos, -, -, hhash, -, -, -, -, rfl⟩ :=
      mint_sUSD_ok h
    constructor
    · simp [hashConsistentB, hpos, hhash]
    · simp [hashConsistentB, getMintMetadata, mapLookup_insert_self]
  | opWithdraw caller depositId amount oraclePrice =>
    simp only [applyOp] at h
    obtain ⟨pos, hpos, -, hhash, -, -, -, -, -, -, -, -, -, rfl⟩ :=
      withdrawCollateral_ok h
    constructor
    · simp [hashConsistentB, hpos, hhash]
    · simp [hashConsistentB, getMintMetadata, mapLookup_insert_self]
  | opRepay caller coin depositId amount =>
    simp only [applyOp] at h
    obtain ⟨pos, hpos, -, hhash, -, -, -, -, rfl⟩ := repay_ok h
    constructor
    · simp [hashConsistentB, hpos, hhash]
    · simp [hashConsistentB, getMintMetadata, mapLookup_insert_self]
  | opDeposit caller coin depositId =>
    simp only [applyOp] at h
    obtain ⟨-, -, -, -, -, rfl⟩ := depositToCollateralPool_ok h
    simp [hashConsistentB, getMintMetadata, mapLookup_insert_self]
  | opResetConfig caller lt lvt mcr => trivial
  | opSetToken caller => trivial
  | opStake caller coin => trivial
  | opCheckReward caller => trivial
  | opWithdrawReward caller amount => trivial
  | opLiquidate collateralAmt depositId debt => trivial
  | opSetPrivateMeta depositId metadata => trivial

/-- Witness for C2 (amended) at the concrete mint step of the trace. -/
theorem c2_witness :
    hashConsistentB t3 5 = true ∧ hashConsistentB t4 5 = true :=
  c2_hash_commitment t3 (.opMint callerA 500 5) t4 (by decide)

/-- Counterexample for C2 as stated: t6 is reachable (deposit, mint,
stake, liquidate), position 5 still exists on the ledger, yet its stored
metadataHash no longer matches the hash of the current private metadata:
liquidateDebtPosition zeroed the private metadata without checking or
re-establishing the commitment, so the claimed reachable-state invariant
fails. -/
theorem c2_counterexample :
    Reachable t6 ∧ (mapLookup t6.depositors 5).isSome = true ∧
    hashConsistentB t6 5 = false :=
  ⟨reach_t6, by decide, by decide⟩

/-- Case analysis for a lookup in an overwritten map. -/
theorem mapLookup_insert_cases {α : Type} {m : List (Nat × α)}
    {k id : Nat} {v d : α}
    (h : mapLookup (mapInsert m k v) id = some d) :
    (k = id ∧ d = v) ∨ (k ≠ id ∧ mapLookup m id = some d) := by
  by_cases hk : k = id
  · subst hk
    rw [mapLookup_insert_self] at h
    cases h
    exact Or.inl ⟨rfl, rfl⟩
  · rw [mapLookup_insert_ne _ _ _ _ hk] at h
    exact Or.inr ⟨hk, h⟩

/-- Reachable-state invariant: a liquidated position always has
borrowLimit 0 (liquidateDebtPosition zeroes it, and no operation ever
sets the status to liquidated otherwise or raises the limit). -/
theorem reachable_liquidated_borrowLimit {s : State} (hs : Reachable s) :
    ∀ depositId d, mapLookup s.depositors depositId = some d →
      d.position = .liquidated → d.borrowLimit = 0 := by
  induction hs with
  | init a b c e f g =>
    intro id d hd _
    simp [initState, mapLookup] at hd
  | step s op s' hs happ ih =>
    intro id d hd hliq
    cases op with
    | opResetConfig caller lt lvt mcr =>
      obtain ⟨-, -, -, -, rfl⟩ := resetProtocolConfig_ok happ
      exact ih id d hd hliq
    | opSetToken caller =>
      obtain ⟨-, rfl⟩ := setSUSDTokenType_ok happ
      exact ih id d hd hliq
    | opSetPrivateMeta k metadata =>
      obtain ⟨-, -, rfl⟩ := setPrivateMetadata_ok happ
      exact ih id d hd hliq
    | opStake caller coin =>
      obtain ⟨-, -, -, rfl⟩ := depositToStabilityPool_ok happ
      exact ih id d hd hliq
    | opCheckReward caller =>
      simp only [applyOp] at happ
      split at happ
      · cases happ
      next r st s1 heq =>
        cases happ
        obtain ⟨pos, -, -, -, -, -, -, -, -, -, rfl⟩ :=
          checkStakeReward_ok heq
        exact ih id d hd hliq
    | opWithdrawReward caller amount =>
      simp only [applyOp] at happ
      obtain ⟨r, st, s1, hcr, -, -, -, rfl⟩ := withdrawStakeReward_ok happ
      obtain ⟨pos, -, -, -, -, -, -, -, -, -, rfl⟩ :=
        checkStakeReward_ok hcr
      exact ih id d hd hliq
    | opDeposit caller coin k =>
      simp only [applyOp] at happ
      obtain ⟨-, -, -, -, -, rfl⟩ := depositToCollateralPool_ok happ
      rcases mapLookup_insert_cases hd with ⟨-, rfl⟩ | ⟨-, hd'⟩
      · simp at hliq
      · exact ih id d hd' hliq
    | opMint caller amount k =>
      simp only [applyOp] at happ
      obtain ⟨pos, hf, -, -, -, -, -, -, -, -, rfl⟩ := mint_sUSD_ok happ
      rcases mapLookup_insert_cases hd with ⟨-, rfl⟩ | ⟨-, hd'⟩
      · simp at hliq
      · exact ih id d hd' hliq
    | opWithdraw caller k amount oraclePrice =>
      simp only [applyOp] at happ
      obtain ⟨pos, hpos, -, -, hnl, -, -, -, -, -, -, -, -, rfl⟩ :=
        withdrawCollateral_ok happ
      rcases mapLookup_insert_cases hd with ⟨-, rfl⟩ | ⟨-, hd'⟩
      · by_cases hpi : pos.position = DebtPositionStatus.inactive
        · simp [hpi] at hliq
        · simp only [hpi, if_neg, ite_false] at hliq
          exact absurd hliq hnl
      · exact ih id d hd' hliq
    | opRepay caller coin k amount =>
      simp only [applyOp] at happ
      obtain ⟨pos, -, -, -, -, -, -, -, rfl⟩ := repay_ok happ
      rcases mapLookup_insert_cases hd with ⟨-, rfl⟩ | ⟨-, hd'⟩
      · by_cases hz : 0 < (getMintMetadata s k).debt - amount
        · simp [hz] at hliq
        · simp [hz] at hliq
      · exact ih id d hd' hliq
    | opLiquidate collateralAmt k debt =>
      simp only [applyOp] at happ
      obtain ⟨pos, -, -, -, -, -, -, -, rfl⟩ :=
        liquidateDebtPosition_ok happ
      rcases mapLookup_insert_cases hd with ⟨-, rfl⟩ | ⟨-, hd'⟩
      · rfl
      · exact ih id d hd' hliq

/-- Claim C5 (amended): liquidated is terminal: in every reachable state,
every accepted operation leaves a liquidated position's status
liquidated.  (closed is not terminal: mint_sUSD can return a closed
position to active and liquidateDebtPosition can move it to liquidated —
see the counterexample.) -/
theorem c5_liquidated_terminal (s : State) (op : Op) (s' : State)
    (hreach : Reachable s) (happ : applyOp s op = .ok s')
    (depositId : Nat) (d : Depositor)
    (hd : mapLookup s.depositors depositId = some d)
    (hliq : d.position = .liquidated) :
    ∃ d', mapLookup s'.depositors depositId = some d' ∧
      d'.position = .liquidated := by
  cases op with
  | opResetConfig caller lt lvt mcr =>
    obtain ⟨-, -, -, -, rfl⟩ := resetProtocolConfig_ok happ
    exact ⟨d, hd, hliq⟩
  | opSetToken caller =>
    obtain ⟨-, rfl⟩ := setSUSDTokenType_ok happ
    exact ⟨d, hd, hliq⟩
  | opSetPrivateMeta k metadata =>
    obtain ⟨-, -, rfl⟩ := setPrivateMetadata_ok happ
    exact ⟨d, hd, hliq⟩
  | opStake caller coin =>
    obtain ⟨-, -, -, rfl⟩ := depositToStabilityPool_ok happ
    exact ⟨d, hd, hliq⟩
  | opCheckReward caller =>
    simp only [applyOp] at happ
    split at happ
    · cases happ
    next r st s1 heq =>
      cases happ
      obtain ⟨pos, -, -, -, -, -, -, -, -, -, rfl⟩ :=
        checkStakeReward_ok heq
      exact ⟨d, hd, hliq⟩
  | opWithdrawReward caller amount =>
    simp only [applyOp] at happ
    obtain ⟨r, st, s1, hcr, -, -, -, rfl⟩ := withdrawStakeReward_ok happ
    obtain ⟨pos, -, -, -, -, -, -, -, -, -, rfl⟩ :=
      checkStakeReward_ok hcr
    exact ⟨d, hd, hliq⟩
  | opDeposit caller coin k =>
    simp only [applyOp] at happ
    obtain ⟨hmem, -, -, -, -, rfl⟩ := depositToCollateralPool_ok happ
    by_cases hk : k = depositId
    · subst hk
      rw [mapMember, hd] at hmem
      cases hmem
    · rw [mapLookup_insert_ne _ _ _ _ hk]
      exact ⟨d, hd, hliq⟩
  | opMint caller amount k =>
    simp only [applyOp] at happ
    obtain ⟨pos, hf, hpos, -, hble, -, hhf, -, -, -, rfl⟩ :=
      mint_sUSD_ok happ
    by_cases hk : k = depositId
    · subst hk
      rw [hpos] at hd
      cases hd
      have hbl0 : d.borrowLimit = 0 :=
        reachable_liquidated_borrowLimit hreach k d hpos hliq
      have hamt : amount = 0 := by omega
      subst hamt
      unfold calculateHFactor at hhf
      cases h64 : castUint 64
          ((getMintMetadata s k).collateral * s.liquidationThreshold)
          with
      | error e => simp only [h64] at hhf; cases hhf
      | ok divd =>
        simp only [h64] at hhf
        have hcast : castUint 64 (0 * 100) = .ok 0 := by decide
        simp only [hcast] at hhf
        simp [DivisionFunction] at hhf
    · rw [mapLookup_insert_ne _ _ _ _ hk]
      exact ⟨d, hd, hliq⟩
  | opWithdraw caller k amount oraclePrice =>
    simp only [applyOp] at happ
    obtain ⟨pos, hpos, -, -, hnl, -, -, -, -, -, -, -, -, rfl⟩ :=
      withdrawCollateral_ok happ
    by_cases hk : k = depositId
    · subst hk
      rw [hpos] at hd
      cases hd
      exact absurd hliq hnl
    · rw [mapLookup_insert_ne _ _ _ _ hk]
      exact ⟨d, hd, hliq⟩
  | opRepay caller coin k amount =>
    simp only [applyOp] at happ
    obtain ⟨pos, hpos, hact, -, -, -, -, -, rfl⟩ := repay_ok happ
    by_cases hk : k = depositId
    · subst hk
      rw [hpos] at hd
      cases hd
      rw [hact] at hliq
      cases hliq
    · rw [mapLookup_insert_ne _ _ _ _ hk]
      exact ⟨d, hd, hliq⟩
  | opLiquidate collateralAmt k debt =>
    simp only [applyOp] at happ
    obtain ⟨pos, hpos, -, -, -, -, -, -, rfl⟩ :=
      liquidateDebtPosition_ok happ
    by_cases hk : k = depositId
    · subst hk
      exact ⟨_, mapLookup_insert_self _ _ _, rfl⟩
    · rw [mapLookup_insert_ne _ _ _ _ hk]
      exact ⟨d, hd, hliq⟩

/-- Trace: state after a first checkStakeReward call at t6. -/
def t7 : State := okOr (applyOp t6 (.opCheckReward callerA)) t0

/-- Trace: state after a second consecutive checkStakeReward call. -/
def t8 : State := okOr (applyOp t7 (.opCheckReward callerA)) t0

/-- The Depositor record of position 5 in t6 (after liquidation). -/
def dT6 : Depositor :=
  { id := generateUserId 10
    metadataHash := hashMintMetadata { collateral := 1000, debt := 500 } 5
    hFactor := 0
    position := .liquidated
    coinType := 1
    borrowLimit := 0 }

/-- The Staker record of callerA after the first checkStakeReward at t6. -/
def stT6 : Staker :=
  { id := generateUserId 10
    address := 20
    stakeAmount := 100
    entry_ADA_SUSD_index := 0
    effective_user_balance := 0
    stake_reward := 100
    entry_scale_factor := 1 }

/-- The Staker record of callerA after the second checkStakeReward. -/
def stT7 : Staker := { stT6 with stake_reward := 200 }

/-- Witness for C5 (amended): at the reachable post-liquidation state t6,
an accepted operation leaves position 5 liquidated. -/
theorem c5_witness :
    ∃ d', mapLookup t7.depositors 5 = some d' ∧
      d'.position = .liquidated :=
  c5_liquidated_terminal t6 (.opCheckReward callerA) t7 reach_t6
    (by decide) 5 dT6 (by decide) (by decide)

/-- Counterexample for C5 as stated: rc5 is reachable (deposit, mint 500,
repay 500 in full), position 5 is closed there, yet mint_sUSD is accepted
on it and returns it to active: closed is not terminal. -/
theorem c5_counterexample :
    Reachable rc5 ∧
    (mapLookup rc5.depositors 5).map Depositor.position = some .closed ∧
    applyOp rc5 (.opMint callerA 400 5) = .ok rc6 ∧
    (mapLookup rc6.depositors 5).map Depositor.position = some .active :=
  ⟨reach_rc5, by decide, by decide, by decide⟩

/-- Claim C3 (amended): for two consecutive accepted checkStakeReward
calls with no operation in between, the effectiveBalance component is
unchanged, but the second reward exceeds the first by exactly
stakeAmount * (ADA_sUSD_index - entry_ADA_SUSD_index): the call
accumulates the accrual into stake_reward without resetting
entry_ADA_SUSD_index, so the pair is identical only when that accrual
term is zero. -/
theorem c3_checkReward_second_call (s : State) (caller : Caller)
    (r r' : Nat) (st1 st2 : Staker) (s1 s2 : State)
    (h1 : checkStakeReward s caller = .ok (r, st1, s1))
    (h2 : checkStakeReward s1 caller = .ok (r', st2, s2)) :
    r' = r +
      st1.stakeAmount *
        (s.ADA_sUSD_index - st1.entry_ADA_SUSD_index) ∧
    st2.effective_user_balance = st1.effective_user_balance ∧
    (st1.stakeAmount * (s.ADA_sUSD_index - st1.entry_ADA_SUSD_index) = 0
      → r' = r ∧
        st2.effective_user_balance = st1.effective_user_balance) := by
  obtain ⟨pos, hpos, hid, hle, hr, -, -, -, -, hst1, hs1⟩ :=
    checkStakeReward_ok h1
  subst hs1
  subst hst1
  obtain ⟨pos2, hpos2, -, -, hr', -, -, -, -, hst2, -⟩ :=
    checkStakeReward_ok h2
  rw [mapLookup_insert_self] at hpos2
  cases hpos2
  subst hst2
  have e1 : r' = pos.stakeAmount *
      (s.ADA_sUSD_index - pos.entry_ADA_SUSD_index) + r := hr'
  refine ⟨?_, rfl, ?_⟩
  · show r' = r + pos.stakeAmount *
      (s.ADA_sUSD_index - pos.entry_ADA_SUSD_index)
    omega
  · intro hz
    have hz' : pos.stakeAmount *
        (s.ADA_sUSD_index - pos.entry_ADA_SUSD_index) = 0 := hz
    exact ⟨by omega, rfl⟩

/-- Witness for C3 (amended) at the concrete double call after the trace
liquidation: the second reward is 200 = 100 + 100 * 1. -/
theorem c3_witness :
    (200 : Nat) = 100 +
      stT6.stakeAmount *
        (t6.ADA_sUSD_index - stT6.entry_ADA_SUSD_index) ∧
    stT7.effective_user_balance = stT6.effective_user_balance ∧
    (stT6.stakeAmount * (t6.ADA_sUSD_index - stT6.entry_ADA_SUSD_index)
      = 0 → (200 : Nat) = 100 ∧
        stT7.effective_user_balance = stT6.effective_user_balance) :=
  c3_checkReward_second_call t6 callerA 100 200 stT6 stT7 t7 t8
    (by decide) (by decide)

/-- Counterexample for C3 as stated: at the reachable state t6 two
consecutive checkStakeReward calls of the same staker, with nothing in
between, return rewards 100 and then 200: the claimed idempotence fails
(the reward accrual is double counted). -/
theorem c3_counterexample :
    Reachable t6 ∧
    checkStakeReward t6 callerA = .ok (100, stT6, t7) ∧
    checkStakeReward t7 callerA = .ok (200, stT7, t8) ∧
    ¬((200 : Nat) = 100 ∧
      stT7.effective_user_balance = stT6.effective_user_balance) :=
  ⟨reach_t6, by decide, by decide, by decide⟩

/-- Claim C4 (amended): from a state with a single staker of stakeAmount
100 and entry_scale_factor 1, a stability pool of 100 and scaling factor
1, liquidating debt 50 burns half the pool, but the loss ratio is the
integer quotient 50 / 50 = 1 (not 0.5), so cumulative_scaling_factor
becomes 1 * (1 - 1) = 0 (it cannot halve: it is an integer), and the
staker's next checkStakeReward returns
effectiveBalance = 100 * (0 / 1) = 0, not 50. -/
theorem c4_scenarioB (s : State) (caller : Caller)
    (collateralAmt depositId : Nat) (st : Staker) (d : Depositor)
    (hst : mapLookup s.stakers caller.addr = some st)
    (hid : generateUserId caller.sk = st.id)
    (hsa : st.stakeAmount = 100)
    (hesf : st.entry_scale_factor = 1)
    (hentry : st.entry_ADA_SUSD_index = s.ADA_sUSD_index)
    (hpool : s.stakePoolTotal = 100)
    (hcsf : s.cumulative_scaling_factor = 1)
    (hd : mapLookup s.depositors depositId = some d)
    (hidx : s.ADA_sUSD_index + collateralAmt / 50 < 2 ^ 128)
    (hrw : 100 * (collateralAmt / 50) + st.stake_reward < 2 ^ 64) :
    ∃ s', liquidateDebtPosition s collateralAmt depositId 50 = .ok s' ∧
      s'.cumulative_scaling_factor = 0 ∧
      ∃ r st' s'', checkStakeReward s' caller = .ok (r, st', s'') ∧
        st'.effective_user_balance = 0 := by
  have h1 : castUint 64 (100 - 50) = .ok 50 := by decide
  have h2 : DivisionFunction collateralAmt 50 =
      .ok (collateralAmt / 50) := by
    simp [DivisionFunction]
  have h3 : castUint 128 (collateralAmt / 50) =
      .ok (collateralAmt / 50) := by
    unfold castUint
    rw [if_pos (by omega)]
  have h4 : castUint 128 (s.ADA_sUSD_index + collateralAmt / 50) =
      .ok (s.ADA_sUSD_index + collateralAmt / 50) := by
    unfold castUint
    rw [if_pos hidx]
  have h5 : DivisionFunction 50 50 = .ok 1 := by decide
  have h6 : checkedSub 1 1 = .ok 0 := by decide
  have h7 : castUint 2 (1 * 0) = .ok 0 := by decide
  have hliq : liquidateDebtPosition s collateralAmt depositId 50 =
      .ok { s with
        stakePoolTotal := 50
        ADA_sUSD_index := s.ADA_sUSD_index + collateralAmt / 50
        cumulative_scaling_factor := 0
        privStore := mapInsert s.privStore depositId
          { collateral := 0, debt := 0 }
        depositors := mapInsert s.depositors depositId
          { d with
            hFactor := 0
            position := .liquidated
            borrowLimit := 0 } } := by
    simp only [liquidateDebtPosition, hd, hpool, hcsf]
    rw [if_pos (by norm_num : (50 : Nat) ≤ 100)]
    simp only [show (100 : Nat) - 50 = 50 from rfl, h1, h2, h3, h4, h5,
      h6, h7]
  refine ⟨_, hliq, rfl, ?_⟩
  have hc1 : checkedSub (s.ADA_sUSD_index + collateralAmt / 50)
      st.entry_ADA_SUSD_index = .ok (collateralAmt / 50) := by
    unfold checkedSub
    rw [hentry, if_pos (by omega)]
    congr 1
    omega
  have hc2 : castUint 64
      (st.stakeAmount * (collateralAmt / 50) + st.stake_reward) =
      .ok (st.stakeAmount * (collateralAmt / 50) + st.stake_reward) :=
    by
    unfold castUint
    rw [if_pos (by rw [hsa]; omega)]
  have hc3 : castUint 64 0 = .ok 0 := by decide
  have hc4 : DivisionFunction 0 st.entry_scale_factor = .ok 0 := by
    rw [hesf]
    decide
  have hc5 : castUint 32 (st.stakeAmount * 0) = .ok 0 := by
    rw [Nat.mul_zero]
    decide
  apply Exists.intro
  apply Exists.intro
  apply Exists.intro
  constructor
  · simp only [checkStakeReward, hst, if_pos hid, hc1, hc2, hc3, hc4,
      hc5]
    rfl
  · rfl

/-- The Depositor record of position 5 in t4/t5 (after the mint). -/
def dT4 : Depositor :=
  { id := generateUserId 10
    metadataHash := hashMintMetadata { collateral := 1000, debt := 500 } 5
    hFactor := 1
    position := .active
    coinType := 1
    borrowLimit := 500 }

/-- The Staker record of callerA in t5 (right after staking 100). -/
def stT5 : Staker :=
  { id := generateUserId 10
    address := 20
    stakeAmount := 100
    entry_ADA_SUSD_index := 0
    effective_user_balance := 100
    stake_reward := 0
    entry_scale_factor := 1 }

/-- Witness for C4 (amended) at the concrete trace state t5. -/
theorem c4_witness :
    ∃ s', liquidateDebtPosition t5 60 5 50 = .ok s' ∧
      s'.cumulative_scaling_factor = 0 ∧
      ∃ r st' s'', checkStakeReward s' callerA = .ok (r, st', s'') ∧
        st'.effective_user_balance = 0 :=
  c4_scenarioB t5 callerA 60 5 stT5 dT4 (by decide) (by decide)
    (by decide) (by decide) (by decide) (by decide) (by decide)
    (by decide) (by decide) (by decide)

/-- Counterexample for C4 as stated: at the reachable state t5 (single
staker of 100, pool of 100, scaling factor 1), liquidating debt 50 does
not halve cumulative_scaling_factor: it zeroes it (integer loss ratio
50 / 50 = 1), and the staker's next checkStakeReward returns
effectiveBalance 0, not 50. -/
theorem c4_counterexample :
    Reachable t5 ∧
    t5.cumulative_scaling_factor = 1 ∧
    t5.stakePoolTotal = 100 ∧
    (mapLookup t5.stakers 20).map Staker.stakeAmount = some 100 ∧
    applyOp t5 (.opLiquidate 60 5 50) = .ok t6 ∧
    t6.cumulative_scaling_factor = 0 ∧
    2 * t6.cumulative_scaling_factor ≠ t5.cumulative_scaling_factor ∧
    (checkStakeReward t6 callerA).map
      (fun x => x.2.1.effective_user_balance) = .ok 0 ∧
    (0 : Nat) ≠ 50 :=
  ⟨reach_t5, by decide, by decide, by decide, by decide, by decide,
    by decide, by decide, by decide⟩

/-- Claim C7: under the preceding mint checks (position exists, caller is
the owner, amount within the borrow limit, commitment hash matches) and
with the division defined (mint_amount nonzero, factors within Uint<64>),
mint_sUSD computes the health factor as the verified floor division of
collateral * liquidationThreshold by mint_amount * 100; whenever that
value is < 1 the call fails with the solvency error, and a successful
call stores exactly that value as the position's hFactor (which is then
at least 1). -/
theorem c7_healthFactor_gate (s : State) (caller : Caller)
    (mint_amount depositId : Nat) (d : Depositor)
    (hd : mapLookup s.depositors depositId = some d)
    (hown : generateUserId caller.sk = d.id)
    (hbl : mint_amount ≤ d.borrowLimit)
    (hhash : hashMintMetadata (getMintMetadata s depositId) depositId =
      d.metadataHash)
    (hc1 : (getMintMetadata s depositId).collateral *
      s.liquidationThreshold < 2 ^ 64)
    (hc2 : mint_amount * 100 < 2 ^ 64)
    (hnz : mint_amount ≠ 0) :
    calculateHFactor (getMintMetadata s depositId).collateral
      mint_amount s.liquidationThreshold =
      .ok ((getMintMetadata s depositId).collateral *
        s.liquidationThreshold / (mint_amount * 100)) ∧
    ((getMintMetadata s depositId).collateral *
        s.liquidationThreshold / (mint_amount * 100) < 1 →
      mint_sUSD s caller mint_amount depositId =
        .error .SolvencyViolation) ∧
    (∀ s', mint_sUSD s caller mint_amount depositId = .ok s' →
      ∃ d', mapLookup s'.depositors depositId = some d' ∧
        d'.hFactor = (getMintMetadata s depositId).collateral *
          s.liquidationThreshold / (mint_amount * 100) ∧
        1 ≤ d'.hFactor) := by
  have e1 : castUint 64
      ((getMintMetadata s depositId).collateral *
        s.liquidationThreshold) =
      .ok ((getMintMetadata s depositId).collateral *
        s.liquidationThreshold) := by
    unfold castUint
    rw [if_pos hc1]
  have e2 : castUint 64 (mint_amount * 100) = .ok (mint_amount * 100) :=
    by
    unfold castUint
    rw [if_pos hc2]
  have e3 : DivisionFunction
      ((getMintMetadata s depositId).collateral *
        s.liquidationThreshold) (mint_amount * 100) =
      .ok ((getMintMetadata s depositId).collateral *
        s.liquidationThreshold / (mint_amount * 100)) := by
    unfold DivisionFunction
    rw [if_neg (by simp [hnz])]
  have hcalc : calculateHFactor
      (getMintMetadata s depositId).collateral mint_amount
      s.liquidationThreshold =
      .ok ((getMintMetadata s depositId).collateral *
        s.liquidationThreshold / (mint_amount * 100)) := by
    simp only [calculateHFactor, e1, e2, e3]
  refine ⟨hcalc, ?_, ?_⟩
  · intro hlt
    simp only [mint_sUSD, hd, if_pos hown, if_pos hbl, if_pos hhash,
      hcalc]
    rw [if_neg (by omega)]
  · intro s' hok
    obtain ⟨pos, hf', hpos, -, -, -, hhf', hge', -, -, rfl⟩ :=
      mint_sUSD_ok hok
    rw [hpos] at hd
    cases hd
    rw [hcalc] at hhf'
    cases hhf'
    exact ⟨_, mapLookup_insert_self _ _ _, rfl, hge'⟩

/-- Witness for C7 at the concrete mint of the trace: h-factor
1000 * 80 / (500 * 100) = 1. -/
theorem c7_witness :
    calculateHFactor (getMintMetadata t3 5).collateral 500
      t3.liquidationThreshold =
      .ok ((getMintMetadata t3 5).collateral *
        t3.liquidationThreshold / (500 * 100)) ∧
    ((getMintMetadata t3 5).collateral * t3.liquidationThreshold /
        (500 * 100) < 1 →
      mint_sUSD t3 callerA 500 5 = .error .SolvencyViolation) ∧
    (∀ s', mint_sUSD t3 callerA 500 5 = .ok s' →
      ∃ d', mapLookup s'.depositors 5 = some d' ∧
        d'.hFactor = (getMintMetadata t3 5).collateral *
          t3.liquidationThreshold / (500 * 100) ∧
        1 ≤ d'.hFactor) :=
  c7_healthFactor_gate t3 callerA 500 5
    { id := generateUserId 10
      metadataHash := hashMintMetadata { collateral := 1000, debt := 0 } 5
      hFactor := 0
      position := .inactive
      coinType := 1
      borrowLimit := 500 }
    (by decide) (by decide) (by decide) (by decide) (by decide)
    (by decide) (by decide)

/-- Claim C8 (amended): repay checks the position exists, that it is
active, and that the commitment hash matches (each else a precondition
error) — its only authentication is the metadata-hash check: it performs
no derived-owner-id comparison; it fails with a precondition error if the
coin color differs from sUSDTokenType, if amountToRepay exceeds the
private debt, or if amountToRepay < coin.value; on success (which also
needs the custody burn to cover amountToRepay, i.e.
amountToRepay ≤ coin.value) the private debt decreases by amountToRepay
and the position becomes closed exactly when the resulting debt is 0,
otherwise stays active. -/
theorem c8_repay_contract (s : State) (caller : Caller)
    (coin : CoinInfo) (depositId amountToRepay : Nat) (d : Depositor)
    (hd : mapLookup s.depositors depositId = some d) :
    (d.position ≠ .active →
      repay s caller coin depositId amountToRepay =
        .error .PreconditionViolation) ∧
    (d.position = .active →
      hashMintMetadata (getMintMetadata s depositId) depositId ≠
        d.metadataHash →
      repay s caller coin depositId amountToRepay =
        .error .PreconditionViolation) ∧
    (d.position = .active →
      hashMintMetadata (getMintMetadata s depositId) depositId =
        d.metadataHash →
      coin.color ≠ s.sUSDTokenType →
      repay s caller coin depositId amountToRepay =
        .error .PreconditionViolation) ∧
    (d.position = .active →
      hashMintMetadata (getMintMetadata s depositId) depositId =
        d.metadataHash →
      coin.color = s.sUSDTokenType →
      (getMintMetadata s depositId).debt < amountToRepay →
      repay s caller coin depositId amountToRepay =
        .error .PreconditionViolation) ∧
    (d.position = .active →
      hashMintMetadata (getMintMetadata s depositId) depositId =
        d.metadataHash →
      coin.color = s.sUSDTokenType →
      amountToRepay ≤ (getMintMetadata s depositId).debt →
      amountToRepay < coin.value →
      repay s caller coin depositId amountToRepay =
        .error .PreconditionViolation) ∧
    (d.position = .active →
      hashMintMetadata (getMintMetadata s depositId) depositId =
        d.metadataHash →
      coin.color = s.sUSDTokenType →
      amountToRepay ≤ (getMintMetadata s depositId).debt →
      coin.value ≤ amountToRepay →
      amountToRepay ≤ coin.value →
      ∃ s', repay s caller coin depositId amountToRepay = .ok s' ∧
        getMintMetadata s' depositId =
          { getMintMetadata s depositId with
            debt := (getMintMetadata s depositId).debt - amountToRepay }
          ∧
        ∃ d', mapLookup s'.depositors depositId = some d' ∧
          d'.position =
            (if 0 < (getMintMetadata s depositId).debt - amountToRepay
             then DebtPositionStatus.active
             else DebtPositionStatus.closed)) := by
  refine ⟨?_, ?_, ?_, ?_, ?_, ?_⟩
  · intro h1
    simp only [repay, hd]
    rw [if_neg h1]
  · intro h1 h2
    simp only [repay, hd, if_pos h1]
    rw [if_neg h2]
  · intro h1 h2 h3
    simp only [repay, hd, if_pos h1, if_pos h2]
    rw [if_neg h3]
  · intro h1 h2 h3 h4
    simp only [repay, hd, if_pos h1, if_pos h2, if_pos h3]
    rw [if_neg (by omega)]
  · intro h1 h2 h3 h4 h5
    simp only [repay, hd, if_pos h1, if_pos h2, if_pos h3, if_pos h4]
    rw [if_neg (by omega)]
  · intro h1 h2 h3 h4 h5 h6
    apply Exists.intro
    refine ⟨?_, ?_, ?_⟩
    · simp only [repay, hd, if_pos h1, if_pos h2, if_pos h3, if_pos h4,
        if_pos h5, if_pos h6]
      rfl
    · simp [getMintMetadata, mapLookup_insert_self]
    · exact ⟨_, mapLookup_insert_self _ _ _, rfl⟩

/-- Witness for C8 (amended) at the concrete trace position t4. -/
theorem c8_witness :
    (dT4.position = .active →
      hashMintMetadata (getMintMetadata t4 5) 5 = dT4.metadataHash →
      CoinInfo.color { color := 99, value := 200 } = t4.sUSDTokenType →
      200 ≤ (getMintMetadata t4 5).debt →
      CoinInfo.value { color := 99, value := 200 } ≤ 200 →
      200 ≤ CoinInfo.value { color := 99, value := 200 } →
      ∃ s', repay t4 callerA { color := 99, value := 200 } 5 200 =
          .ok s' ∧
        getMintMetadata s' 5 =
          { getMintMetadata t4 5 with
            debt := (getMintMetadata t4 5).debt - 200 } ∧
        ∃ d', mapLookup s'.depositors 5 = some d' ∧
          d'.position =
            (if 0 < (getMintMetadata t4 5).debt - 200
             then DebtPositionStatus.active
             else DebtPositionStatus.closed)) ∧
    ∃ s', repay t4 callerA { color := 99, value := 200 } 5 200 =
        .ok s' ∧ getMintMetadata s' 5 =
          { collateral := 1000, debt := 300 } := by
  have hmain :=
    (c8_repay_contract t4 callerA { color := 99, value := 200 } 5 200
      dT4 (by decide)).2.2.2.2.2
  refine ⟨hmain, ?_⟩
  obtain ⟨s', hrep, hmeta, -⟩ := hmain (by decide) (by decide)
    (by decide) (by decide) (by decide) (by decide)
  exact ⟨s', hrep, hmeta⟩

/-- Counterexample for C8 as stated: at the reachable state t4 the stored
owner id of position 5 derives from callerA's secret; callerB's derived
id differs, yet callerB's repay of 200 is accepted: repay performs no
ownership verification. -/
theorem c8_counterexample :
    Reachable t4 ∧
    (mapLookup t4.depositors 5).map Depositor.id =
      some (generateUserId callerA.sk) ∧
    generateUserId callerB.sk ≠ generateUserId callerA.sk ∧
    repay t4 callerB { color := 99, value := 200 } 5 200 = .ok r5 :=
  ⟨reach_t4, by decide, by decide, by decide⟩

/-- Claim C9: withdrawCollateral (after the ownership and hash checks)
fails with a precondition error on a liquidated position; otherwise it
computes minimumCollateralValue = floor(debt * MCR / 100) and
withdrawable = floor((collateral * oraclePrice - minimumCollateralValue)
/ oraclePrice) by verified division, fails with the solvency error
whenever the requested amount exceeds withdrawable, and on success
decrements the private collateral by the amount, moving an inactive
position to closed and leaving every other position status unchanged. -/
theorem c9_withdraw_sizing (s : State) (caller : Caller)
    (depositId amountToWithdraw oraclePrice : Nat) (d : Depositor)
    (hd : mapLookup s.depositors depositId = some d)
    (hown : generateUserId caller.sk = d.id)
    (hhash : hashMintMetadata (getMintMetadata s depositId) depositId =
      d.metadataHash)
    (hpd : s.percentageDivisor = 100) :
    (d.position = .liquidated →
      withdrawCollateral s caller depositId amountToWithdraw
        oraclePrice = .error .PreconditionViolation) ∧
    (d.position ≠ .liquidated →
      (getMintMetadata s depositId).debt * s.MCR < 2 ^ 64 →
      (getMintMetadata s depositId).debt * s.MCR / 100 ≤
        (getMintMetadata s depositId).collateral * oraclePrice →
      (getMintMetadata s depositId).collateral * oraclePrice -
        (getMintMetadata s depositId).debt * s.MCR / 100 < 2 ^ 64 →
      oraclePrice ≠ 0 →
      (( ((getMintMetadata s depositId).collateral * oraclePrice -
            (getMintMetadata s depositId).debt * s.MCR / 100) /
            oraclePrice < amountToWithdraw →
        withdrawCollateral s caller depositId amountToWithdraw
          oraclePrice = .error .SolvencyViolation) ∧
      (amountToWithdraw ≤
          ((getMintMetadata s depositId).collateral * oraclePrice -
            (getMintMetadata s depositId).debt * s.MCR / 100) /
            oraclePrice →
        amountToWithdraw ≤ s.reservePoolTotal →
        ∃ s', withdrawCollateral s caller depositId amountToWithdraw
            oraclePrice = .ok s' ∧
          (getMintMetadata s' depositId).collateral =
            (getMintMetadata s depositId).collateral -
              amountToWithdraw ∧
          ∃ d', mapLookup s'.depositors depositId = some d' ∧
            d'.position =
              (if d.position = .inactive then DebtPositionStatus.closed
               else d.position)))) := by
  constructor
  · intro h1
    simp only [withdrawCollateral, hd, if_pos hown, if_pos hhash]
    rw [if_pos h1]
  · intro h1 hm64 hmle hdlt hp0
    have e1 : castUint 64 ((getMintMetadata s depositId).debt * s.MCR) =
        .ok ((getMintMetadata s depositId).debt * s.MCR) := by
      unfold castUint
      rw [if_pos hm64]
    have e2 : DivisionFunction
        ((getMintMetadata s depositId).debt * s.MCR)
        s.percentageDivisor =
        .ok ((getMintMetadata s depositId).debt * s.MCR / 100) := by
      rw [hpd]
      unfold DivisionFunction
      rw [if_neg (by norm_num)]
    have e3 : checkedSub
        ((getMintMetadata s depositId).collateral * oraclePrice)
        ((getMintMetadata s depositId).debt * s.MCR / 100) =
        .ok ((getMintMetadata s depositId).collateral * oraclePrice -
          (getMintMetadata s depositId).debt * s.MCR / 100) := by
      unfold checkedSub
      rw [if_pos hmle]
    have e4 : castUint 64
        ((getMintMetadata s depositId).collateral * oraclePrice -
          (getMintMetadata s depositId).debt * s.MCR / 100) =
        .ok ((getMintMetadata s depositId).collateral * oraclePrice -
          (getMintMetadata s depositId).debt * s.MCR / 100) := by
      unfold castUint
      rw [if_pos hdlt]
    have e5 : DivisionFunction
        ((getMintMetadata s depositId).collateral * oraclePrice -
          (getMintMetadata s depositId).debt * s.MCR / 100)
        oraclePrice =
        .ok (((getMintMetadata s depositId).collateral * oraclePrice -
          (getMintMetadata s depositId).debt * s.MCR / 100) /
          oraclePrice) := by
      unfold DivisionFunction
      rw [if_neg hp0]
    constructor
    · intro hgt
      simp only [withdrawCollateral, hd, if_pos hown, if_pos hhash,
        if_neg h1, e1, e2, e3, e4, e5]
      rw [if_neg (by omega)]
    · intro hle hres
      have hwdc : ((getMintMetadata s depositId).collateral *
          oraclePrice -
          (getMintMetadata s depositId).debt * s.MCR / 100) /
          oraclePrice ≤ (getMintMetadata s depositId).collateral := by
        calc ((getMintMetadata s depositId).collateral * oraclePrice -
              (getMintMetadata s depositId).debt * s.MCR / 100) /
              oraclePrice ≤
            (getMintMetadata s depositId).collateral * oraclePrice /
              oraclePrice :=
              Nat.div_le_div_right (Nat.sub_le _ _)
          _ = (getMintMetadata s depositId).collateral :=
              Nat.mul_div_cancel _ (Nat.pos_of_ne_zero hp0)
      have e6 : checkedSub (getMintMetadata s depositId).collateral
          amountToWithdraw =
          .ok ((getMintMetadata s depositId).collateral -
            amountToWithdraw) := by
        unfold checkedSub
        rw [if_pos (by omega)]
      apply Exists.intro
      refine ⟨?_, ?_, ?_⟩
      · simp only [withdrawCollateral, hd, if_pos hown, if_pos hhash,
          if_neg h1, e1, e2, e3, e4, e5, if_pos hle, e6, if_pos hres]
        rfl
      · simp [getMintMetadata, mapLookup_insert_self]
      · exact ⟨_, mapLookup_insert_self _ _ _, rfl⟩

/-- Witness for C9 at the concrete trace state t4 (withdraw 100 at
oracle price 2: withdrawable = (2000 - 550) / 2 = 725). -/
theorem c9_witness :
    ((getMintMetadata t4 5).collateral * 2 -
        (getMintMetadata t4 5).debt * t4.MCR / 100) / 2 = 725 ∧
    ∃ s', withdrawCollateral t4 callerA 5 100 2 = .ok s' ∧
      (getMintMetadata s' 5).collateral =
        (getMintMetadata t4 5).collateral - 100 ∧
      ∃ d', mapLookup s'.depositors 5 = some d' ∧
        d'.position =
          (if dT4.position = .inactive then DebtPositionStatus.closed
           else dT4.position) := by
  have hmain :=
    (c9_withdraw_sizing t4 callerA 5 100 2 dT4 (by decide) (by decide)
      (by decide) (by decide)).2 (by decide) (by decide) (by decide)
      (by decide) (by decide)
  exact ⟨by decide, hmain.2 (by decide) (by decide)⟩

/-- Claim C10 (amended): liquidateDebtPosition performs no ownership,
metadata-hash, position-status or health-factor check: for every stored
Depositor record, whatever its status (including closed or liquidated)
and whoever its owner, the call fails with a precondition error exactly
on a missing position, with the solvency error exactly on an
insufficient stake pool, and otherwise is accepted whenever its verified
divisions succeed AND the integer loss ratio debt / (pool - debt) is at
most 1 (otherwise the unsigned computation of 1 - lossRatio underflows
and the call fails with an arithmetic fault, even though both divisions
succeeded — see the counterexample) and the index and factor updates fit
their ledger types. -/
theorem c10_liquidate_no_checks (s : State)
    (collateralAmt depositId debt : Nat) :
    (mapLookup s.depositors depositId = none →
      liquidateDebtPosition s collateralAmt depositId debt =
        .error .PreconditionViolation) ∧
    (∀ d, mapLookup s.depositors depositId = some d →
      s.stakePoolTotal < debt →
      liquidateDebtPosition s collateralAmt depositId debt =
        .error .SolvencyViolation) ∧
    (∀ d, mapLookup s.depositors depositId = some d →
      debt ≤ s.stakePoolTotal →
      s.stakePoolTotal - debt ≠ 0 →
      s.stakePoolTotal - debt < 2 ^ 64 →
      s.ADA_sUSD_index + collateralAmt / (s.stakePoolTotal - debt) <
        2 ^ 128 →
      debt / (s.stakePoolTotal - debt) ≤ 1 →
      s.cumulative_scaling_factor < 4 →
      ∃ s', liquidateDebtPosition s collateralAmt depositId debt =
          .ok s' ∧
        ∃ d', mapLookup s'.depositors depositId = some d' ∧
          d'.position = .liquidated ∧ d'.borrowLimit = 0 ∧
          d'.hFactor = 0) := by
  refine ⟨?_, ?_, ?_⟩
  · intro h
    simp only [liquidateDebtPosition, h]
  · intro d hd hlt
    simp only [liquidateDebtPosition, hd]
    rw [if_neg (by omega)]
  · intro d hd hpool hpz hpw hidx hlr hcsf
    have f1 : castUint 64 (s.stakePoolTotal - debt) =
        .ok (s.stakePoolTotal - debt) := by
      unfold castUint
      rw [if_pos hpw]
    have f2 : DivisionFunction collateralAmt
        (s.stakePoolTotal - debt) =
        .ok (collateralAmt / (s.stakePoolTotal - debt)) := by
      unfold DivisionFunction
      rw [if_neg hpz]
    have f3 : castUint 128
        (collateralAmt / (s.stakePoolTotal - debt)) =
        .ok (collateralAmt / (s.stakePoolTotal - debt)) := by
      unfold castUint
      rw [if_pos (by omega)]
    have f4 : castUint 128
        (s.ADA_sUSD_index +
          collateralAmt / (s.stakePoolTotal - debt)) =
        .ok (s.ADA_sUSD_index +
          collateralAmt / (s.stakePoolTotal - debt)) := by
      unfold castUint
      rw [if_pos hidx]
    have f5 : DivisionFunction debt (s.stakePoolTotal - debt) =
        .ok (debt / (s.stakePoolTotal - debt)) := by
      unfold DivisionFunction
      rw [if_neg hpz]
    have f6 : checkedSub 1 (debt / (s.stakePoolTotal - debt)) =
        .ok (1 - debt / (s.stakePoolTotal - debt)) := by
      unfold checkedSub
      rw [if_pos hlr]
    have f7 : castUint 2
        (s.cumulative_scaling_factor *
          (1 - debt / (s.stakePoolTotal - debt))) =
        .ok (s.cumulative_scaling_factor *
          (1 - debt / (s.stakePoolTotal - debt))) := by
      unfold castUint
      rw [if_pos (by
        have := mul_one_sub_le s.cumulative_scaling_factor
          (debt / (s.stakePoolTotal - debt))
        omega)]
    apply Exists.intro
    refine ⟨?_, ?_⟩
    · simp only [liquidateDebtPosition, hd, if_pos hpool, f1, f2, f3,
        f4, f5, f6, f7]
      rfl
    · exact ⟨_, mapLookup_insert_self _ _ _, rfl, rfl, rfl⟩

/-- Witness for C10 (amended) at the concrete trace state t5 (position 5
is active there, debt 50 against a pool of 100; the call is accepted with
no ownership or status requirement). -/
theorem c10_witness :
    ∃ s', liquidateDebtPosition t5 60 5 50 = .ok s' ∧
      ∃ d', mapLookup s'.depositors 5 = some d' ∧
        d'.position = .liquidated ∧ d'.borrowLimit = 0 ∧
        d'.hFactor = 0 :=
  (c10_liquidate_no_checks t5 60 5 50).2.2 dT4 (by decide) (by decide)
    (by decide) (by decide) (by decide) (by decide) (by decide)

/-- Counterexample for C10 as stated: at the reachable state t5 position
5 exists and the pool (100) covers debt 80, both verified divisions
succeed (10 / 20 = 0 and 80 / 20 = 4), yet the call is rejected with an
arithmetic fault because 1 - lossRatio = 1 - 4 underflows: acceptance
does not follow from the divisions succeeding. -/
theorem c10_counterexample :
    Reachable t5 ∧
    mapMember t5.depositors 5 = true ∧
    (80 : Nat) ≤ t5.stakePoolTotal ∧
    DivisionFunction 10 (t5.stakePoolTotal - 80) = .ok 0 ∧
    DivisionFunction 80 (t5.stakePoolTotal - 80) = .ok 4 ∧
    liquidateDebtPosition t5 10 5 80 = .error .ArithmeticFault :=
  ⟨reach_t5, by decide, by decide, by decide, by decide, by decide⟩
